import Mathlib

/-!
The module `game_accelerator`: collision and position helpers.

A shallow embedding of `src/game_accelerator.cpp`.

Modelling conventions.

* There are two models of the C++ `float`.  In the exact model it is `ℚ` (the spec's
  data model takes all coordinates to be finite real numbers) and the conversion
  `int → float` of `screen_width` is the exact cast `ℤ → ℚ`.  It carries the
  properties that do not depend on rounding: the structure of the loops, the
  index sets they produce, and the properties of `collides_with` that binary32
  arithmetic shares.
* Where a claim turns on rounding, the functions are embedded a second time over a
  model of IEEE 754 binary32 (namespace `Binary32`): sums and the conversion
  `int → float` round to nearest, ties to even, with overflow to an infinity, and
  comparisons with NaN are false.
* The scalar functions that call `std::sqrt` are generic in the ordered field of
  numbers and take the square root as a parameter; their properties are proved
  in exact arithmetic, on `ℝ` with `Real.sqrt`.  A quotient by zero is not a
  finite number and is reported as `none`.
* `std::vector<T>` is `List T`.  `operator[]` outside the bounds is undefined
  behaviour in C++; the embedding is total and reports it as
  `Except.error Fault.outOfBounds`.
* `size_t` loop counters and the `int` indices stored in results are natural
  numbers (the conversion `size_t → int` is the identity below `2^31`).
* A counted loop `for (size_t i = 0; i < n; ++i) body` is the monadic left fold
  of `body` over `List.range n`.
-/

namespace GameAccelerator

/-- The only way a call can go wrong: an index outside a vector. -/
inductive Fault where
  | outOfBounds
  deriving DecidableEq, Repr

/-- Reading `v[i]` for a `std::vector`. -/
def readAt {α : Type} (v : List α) (i : Nat) : Except Fault α :=
  match v[i]? with
  | some a => Except.ok a
  | none => Except.error Fault.outOfBounds

/-- The struct `Rect`: `float x, y, width, height`. -/
structure Rect where
  x : ℚ
  y : ℚ
  width : ℚ
  height : ℚ
  deriving DecidableEq, Repr

/-- The member function `Rect::collides_with`. -/
def Rect.collides_with (self other : Rect) : Bool :=
  !(decide (self.x + self.width < other.x) || decide (other.x + other.width < self.x) ||
    decide (self.y + self.height < other.y) || decide (other.y + other.height < self.y))

/-- The construction `Rect r(v[idx][0], v[idx][1], w, h)` used by every batch routine. -/
def rectAt (v : List (List ℚ)) (idx : Nat) (w h : ℚ) : Except Fault Rect := do
  let rec_ ← readAt v idx
  let x ← readAt rec_ 0
  let y ← readAt rec_ 1
  pure (Rect.mk x y w h)

/-- Body of the inner loop of `check_bullet_enemy_collisions`. -/
def bulletEnemyInner (bullet : Rect) (b_idx : Nat) (enemies : List (List ℚ)) (enemy_w enemy_h : ℚ)
    (collisions : List (Nat × Nat)) (e_idx : Nat) : Except Fault (List (Nat × Nat)) := do
  let enemy ← rectAt enemies e_idx enemy_w enemy_h
  if bullet.collides_with enemy then
    pure (collisions ++ [(b_idx, e_idx)])
  else
    pure collisions

/-- Body of the outer loop of `check_bullet_enemy_collisions`. -/
def bulletEnemyOuter (bullets enemies : List (List ℚ)) (bullet_w bullet_h enemy_w enemy_h : ℚ)
    (collisions : List (Nat × Nat)) (b_idx : Nat) : Except Fault (List (Nat × Nat)) := do
  let bullet ← rectAt bullets b_idx bullet_w bullet_h
  List.foldlM (bulletEnemyInner bullet b_idx enemies enemy_w enemy_h) collisions
    (List.range enemies.length)

/-- The function `check_bullet_enemy_collisions`. -/
def check_bullet_enemy_collisions (bullets enemies : List (List ℚ))
    (bullet_w bullet_h enemy_w enemy_h : ℚ) : Except Fault (List (Nat × Nat)) :=
  List.foldlM (bulletEnemyOuter bullets enemies bullet_w bullet_h enemy_w enemy_h) []
    (List.range bullets.length)

/-- The function `check_player_enemy_collisions`: body of its loop. -/
def playerEnemyBody (player_rect : Rect) (enemies : List (List ℚ)) (enemy_w enemy_h : ℚ)
    (collisions : List Nat) (e_idx : Nat) : Except Fault (List Nat) := do
  let enemy ← rectAt enemies e_idx enemy_w enemy_h
  if player_rect.collides_with enemy then
    pure (collisions ++ [e_idx])
  else
    pure collisions

/-- The function `check_player_enemy_collisions`. -/
def check_player_enemy_collisions (player : List ℚ) (enemies : List (List ℚ))
    (player_w player_h enemy_w enemy_h : ℚ) : Except Fault (List Nat) := do
  let px ← readAt player 0
  let py ← readAt player 1
  let player_rect := Rect.mk px py player_w player_h
  List.foldlM (playerEnemyBody player_rect enemies enemy_w enemy_h) [] (List.range enemies.length)

/-- Writing `v[i] = a` for a `std::vector`. -/
def writeAt {α : Type} (v : List α) (i : Nat) (a : α) : Except Fault (List α) :=
  if i < v.length then Except.ok (v.set i a) else Except.error Fault.outOfBounds

/-- Reading `v[i][k]` for a vector of vectors. -/
def readAt2 (v : List (List ℚ)) (i k : Nat) : Except Fault ℚ := do
  let rec_ ← readAt v i
  readAt rec_ k

/-- Writing `v[i][k] = a` for a vector of vectors. -/
def writeAt2 (v : List (List ℚ)) (i k : Nat) (a : ℚ) : Except Fault (List (List ℚ)) := do
  let rec_ ← readAt v i
  let rec_ ← writeAt rec_ k a
  writeAt v i rec_

/-- Body of the loop of `update_enemy_positions`. -/
def updateEnemyBody (enemy_speeds : List ℚ) (screen_width : ℤ)
    (result : List (List ℚ)) (i : Nat) : Except Fault (List (List ℚ)) := do
  -- result[i][0] += result[i][4];
  let x0 ← readAt2 result i 0
  let sx ← readAt2 result i 4
  let result ← writeAt2 result i 0 (x0 + sx)
  -- result[i][1] += enemy_speeds[i];
  let y0 ← readAt2 result i 1
  let sy ← readAt enemy_speeds i
  let result ← writeAt2 result i 1 (y0 + sy)
  -- if (result[i][0] < 0) result[i][0] = 0;
  let x1 ← readAt2 result i 0
  let result ← if x1 < 0 then writeAt2 result i 0 0 else pure result
  -- if (result[i][0] > screen_width) result[i][0] = screen_width;
  let x2 ← readAt2 result i 0
  if x2 > (screen_width : ℚ) then writeAt2 result i 0 (screen_width : ℚ) else pure result

/-- The function `update_enemy_positions`; `screen_height` is a parameter the body never uses. -/
def update_enemy_positions (enemies : List (List ℚ)) (enemy_speeds : List ℚ)
    (screen_width _screen_height : ℤ) : Except Fault (List (List ℚ)) :=
  List.foldlM (updateEnemyBody enemy_speeds screen_width) enemies (List.range enemies.length)

/-- The function `bullet_boss_collision`. -/
def bullet_boss_collision (bullet_x bullet_y bullet_w bullet_h boss_x boss_y boss_w boss_h : ℚ) :
    Bool :=
  let bullet := Rect.mk bullet_x bullet_y bullet_w bullet_h
  let boss := Rect.mk boss_x boss_y boss_w boss_h
  bullet.collides_with boss

/-- The function `player_bullet_collision`. -/
def player_bullet_collision
    (player_x player_y player_w player_h bullet_x bullet_y bullet_w bullet_h : ℚ) : Bool :=
  let player := Rect.mk player_x player_y player_w player_h
  let bullet := Rect.mk bullet_x bullet_y bullet_w bullet_h
  player.collides_with bullet

/-- Body of the loop of `check_player_powerup_collisions`. -/
def playerPowerupBody (player_rect : Rect) (powerups : List (List ℚ)) (powerup_w powerup_h : ℚ)
    (collisions : List Bool) (i : Nat) : Except Fault (List Bool) := do
  let pu ← rectAt powerups i powerup_w powerup_h
  if player_rect.collides_with pu then
    writeAt collisions i true
  else
    pure collisions

/-- The function `check_player_powerup_collisions`. -/
def check_player_powerup_collisions (player : List ℚ) (powerups : List (List ℚ))
    (player_w player_h powerup_w powerup_h : ℚ) : Except Fault (List Bool) := do
  let collisions := List.replicate powerups.length false
  let px ← readAt player 0
  let py ← readAt player 1
  let player_rect := Rect.mk px py player_w player_h
  List.foldlM (playerPowerupBody player_rect powerups powerup_w powerup_h) collisions
    (List.range powerups.length)

/-! ### Scalar helpers

The functions below call `std::sqrt` from `<cmath>`, which is not part of the repository: they
take the square root as the parameter `sqrt` and are generic in the ordered field `F` of
numbers, so that they run on `ℚ` with any rational square-root routine and are reasoned about
on `ℝ` with `Real.sqrt`.  A quotient whose divisor is zero is not a finite number (the C++
result is an infinity or NaN): `fdiv` returns `none` for it. -/

/-- The C++ operator `/` on `float`: `none` when the divisor is zero. -/
def fdiv {F : Type} [LinearOrderedField F] (a b : F) : Option F :=
  if b = 0 then none else some (a / b)

/-- The function `calculate_landmark_distance`. -/
def calculate_landmark_distance {F : Type} [LinearOrderedField F] (sqrt : F → F)
    (x1 y1 z1 x2 y2 z2 : F) : F :=
  let dx := x1 - x2
  let dy := y1 - y2
  let dz := z1 - z2
  sqrt (dx * dx + dy * dy + dz * dz)

/-- The function `is_pinch_detected`. -/
def is_pinch_detected {F : Type} [LinearOrderedField F] (sqrt : F → F)
    (thumb_x thumb_y thumb_z index_x index_y index_z threshold : F) : Bool :=
  let dist := calculate_landmark_distance sqrt thumb_x thumb_y thumb_z index_x index_y index_z
  decide (dist < threshold)

/-- The function `map_finger_position`. -/
def map_finger_position {F : Type} [LinearOrderedField F] (norm_x norm_y
    in_x_min in_x_max in_y_min in_y_max out_x_min out_x_max out_y_min out_y_max : F) :
    Option (List F) := do
  let qx ← fdiv ((norm_x - in_x_min) * (out_x_max - out_x_min)) (in_x_max - in_x_min)
  let screen_x := qx + out_x_min
  let qy ← fdiv ((norm_y - in_y_min) * (out_y_max - out_y_min)) (in_y_max - in_y_min)
  let screen_y := qy + out_y_min
  pure [screen_x, screen_y]

/-- The function `calculate_aim_direction`. -/
def calculate_aim_direction {F : Type} [LinearOrderedField F] (sqrt : F → F)
    (enemy_x enemy_y player_x player_y : F) : Option (List F) :=
  let dx := player_x - enemy_x
  let dy := player_y - enemy_y
  let dist := sqrt (dx * dx + dy * dy)
  if dist = 0 then some [0, 0]
  else do
    let ux ← fdiv dx dist
    let uy ← fdiv dy dist
    pure [ux, uy]

/-- The function `point_distance`. -/
def point_distance {F : Type} [LinearOrderedField F] (sqrt : F → F) (x1 y1 x2 y2 : F) : F :=
  let dx := x1 - x2
  let dy := y1 - y2
  sqrt (dx * dx + dy * dy)

/-- Every record of `v` has at least `k` components. -/
def WellFormed (k : Nat) (v : List (List ℚ)) : Prop := ∀ r ∈ v, k ≤ r.length

instance (k : Nat) (v : List (List ℚ)) : Decidable (WellFormed k v) := by
  unfold WellFormed
  infer_instance

/-- Row-major order on index pairs: lexicographic on (first, second). -/
def RowMajorLt (p q : Nat × Nat) : Prop := p.1 < q.1 ∨ (p.1 = q.1 ∧ p.2 < q.2)

instance (p q : Nat × Nat) : Decidable (RowMajorLt p q) := by
  unfold RowMajorLt
  infer_instance

/-- The rectangle the loops build from record `idx` when it is readable, else a placeholder. -/
def rectD (v : List (List ℚ)) (idx : Nat) (w h : ℚ) : Rect :=
  match rectAt v idx w h with
  | Except.ok r => r
  | Except.error _ => Rect.mk 0 0 w h

/-- Indices of the enemies that `bullet` hits among the first `n`. -/
def hitRow (bullet : Rect) (enemies : List (List ℚ)) (enemy_w enemy_h : ℚ) (n : Nat) : List Nat :=
  (List.range n).filter (fun j => bullet.collides_with (rectD enemies j enemy_w enemy_h))

/-- All collision pairs of the first `m` bullets, row by row. -/
def hitPairs (bullets enemies : List (List ℚ)) (bullet_w bullet_h enemy_w enemy_h : ℚ) (m : Nat) :
    List (Nat × Nat) :=
  (List.range m).flatMap (fun i =>
    (hitRow (rectD bullets i bullet_w bullet_h) enemies enemy_w enemy_h enemies.length).map
      (fun j => (i, j)))

/-- The flags of `check_player_powerup_collisions` after `n` iterations of its loop. -/
def powerupFlags (player_rect : Rect) (powerups : List (List ℚ)) (powerup_w powerup_h : ℚ)
    (n : Nat) : List Bool :=
  (List.range powerups.length).map (fun i =>
    decide (i < n) && player_rect.collides_with (rectD powerups i powerup_w powerup_h))

/-- One iteration of `update_enemy_positions` on a single record, in closed form. -/
def stepRecord (speed : ℚ) (screen_width : ℤ) : List ℚ → List ℚ
  | e0 :: e1 :: e2 :: e3 :: e4 :: tail =>
      min (max (e0 + e4) 0) (screen_width : ℚ) :: (e1 + speed) :: e2 :: e3 :: e4 :: tail
  | r => r

/-- The vector `result` of `update_enemy_positions` after `n` iterations of its loop. -/
def stepPrefix (enemies : List (List ℚ)) (enemy_speeds : List ℚ) (screen_width : ℤ) (n : Nat) :
    List (List ℚ) :=
  (List.range enemies.length).map (fun i =>
    if i < n then stepRecord (enemy_speeds.getD i 0) screen_width (enemies.getD i [])
    else enemies.getD i [])

/-! ### The binary32 model

The exact model above answers every question that does not turn on rounding.  Where a claim
does turn on it, the functions are embedded a second time, in the namespace `Binary32`, over a
model of the IEEE 754 binary32 format that `float` has: a value is NaN, an infinity, or a finite
rational; every sum is the exact sum rounded to the nearest binary32 value, ties to the even
significand, overflowing to an infinity; the conversion `int → float` rounds the same way;
every comparison with NaN is false.  The two zeros are identified (no function here
distinguishes them).  Expressions are evaluated in binary32 itself, with no excess
precision. -/

namespace Binary32

/-- Round to the nearest integer, ties to the even one. -/
def roundHalfEven (q : ℚ) : ℤ :=
  let f := ⌊q⌋
  let d := q - f
  if d < 1 / 2 then f else if 1 / 2 < d then f + 1 else if f % 2 = 0 then f else f + 1

/-- Exponent of the unit in the last place of binary32 at `q`: the binade of `q`, not below
the smallest normal binade `2^-126`, minus the 23 fraction bits. -/
def ulpExp (q : ℚ) : ℤ := max (Int.log 2 |q|) (-126) - 23

/-- A `float`: NaN, minus infinity, a finite value, plus infinity. -/
inductive F32 where
  | nan
  | negInf
  | fin (q : ℚ)
  | posInf
  deriving DecidableEq, Repr

/-- The rationals that binary32 holds exactly: `m * 2^e` with a 24-bit `m`, normal or
subnormal. -/
def Representable (q : ℚ) : Prop :=
  ∃ m e : ℤ, |m| < 2 ^ 24 ∧ -149 ≤ e ∧ e ≤ 104 ∧ q = (m : ℚ) * 2 ^ e

/-- The multiple of the unit in the last place nearest to `q`, ties to the even multiple. -/
def roundQ (q : ℚ) : ℚ := (roundHalfEven (q / 2 ^ ulpExp q) : ℚ) * 2 ^ ulpExp q

/-- Rounding of an exact result to binary32, round-to-nearest-even with overflow. -/
def F32.round (q : ℚ) : F32 :=
  if 2 ^ 128 ≤ |roundQ q| then (if q < 0 then F32.negInf else F32.posInf)
  else F32.fin (roundQ q)

/-- The conversion `int → float`. -/
def F32.ofInt (n : ℤ) : F32 := F32.round (n : ℚ)

/-- The operator `+` on `float`. -/
def F32.add : F32 → F32 → F32
  | F32.nan, _ => F32.nan
  | _, F32.nan => F32.nan
  | F32.posInf, F32.negInf => F32.nan
  | F32.negInf, F32.posInf => F32.nan
  | F32.posInf, _ => F32.posInf
  | _, F32.posInf => F32.posInf
  | F32.negInf, _ => F32.negInf
  | _, F32.negInf => F32.negInf
  | F32.fin a, F32.fin b => F32.round (a + b)

/-- The operator `<` on `float`. -/
def F32.lt : F32 → F32 → Bool
  | F32.nan, _ => false
  | _, F32.nan => false
  | F32.negInf, F32.negInf => false
  | F32.negInf, _ => true
  | F32.fin _, F32.negInf => false
  | F32.fin a, F32.fin b => decide (a < b)
  | F32.fin _, F32.posInf => true
  | F32.posInf, _ => false

/-- The operator `<=` on `float`. -/
def F32.le : F32 → F32 → Bool
  | F32.nan, _ => false
  | _, F32.nan => false
  | F32.negInf, _ => true
  | F32.fin _, F32.negInf => false
  | F32.fin a, F32.fin b => decide (a ≤ b)
  | F32.fin _, F32.posInf => true
  | F32.posInf, F32.posInf => true
  | F32.posInf, _ => false

/-- The larger of two `float`s by comparison, `(a < b) ? b : a`: the value the statement
`if (x < 0) x = 0;` leaves in `x` is `F32.max x 0`. -/
def F32.max (a b : F32) : F32 := if F32.lt a b then b else a

/-- The smaller of two `float`s by comparison, `(b < a) ? b : a`: the value the statement
`if (x > w) x = w;` leaves in `x` is `F32.min x w`. -/
def F32.min (a b : F32) : F32 := if F32.lt b a then b else a

/-- The struct `Rect`: `float x, y, width, height`. -/
structure Rect where
  x : F32
  y : F32
  width : F32
  height : F32
  deriving DecidableEq, Repr

/-- The member function `Rect::collides_with`. -/
def Rect.collides_with (self other : Rect) : Bool :=
  !(F32.lt (F32.add self.x self.width) other.x || F32.lt (F32.add other.x other.width) self.x ||
    F32.lt (F32.add self.y self.height) other.y || F32.lt (F32.add other.y other.height) self.y)

/-- The function `bullet_boss_collision`. -/
def bullet_boss_collision (bullet_x bullet_y bullet_w bullet_h boss_x boss_y boss_w boss_h : F32) :
    Bool :=
  let bullet := Rect.mk bullet_x bullet_y bullet_w bullet_h
  let boss := Rect.mk boss_x boss_y boss_w boss_h
  bullet.collides_with boss

/-- The function `player_bullet_collision`. -/
def player_bullet_collision
    (player_x player_y player_w player_h bullet_x bullet_y bullet_w bullet_h : F32) : Bool :=
  let player := Rect.mk player_x player_y player_w player_h
  let bullet := Rect.mk bullet_x bullet_y bullet_w bullet_h
  player.collides_with bullet

/-- Reading `v[i][k]` for a vector of vectors. -/
def readAt2 (v : List (List F32)) (i k : Nat) : Except Fault F32 := do
  let rec_ ← readAt v i
  readAt rec_ k

/-- Writing `v[i][k] = a` for a vector of vectors. -/
def writeAt2 (v : List (List F32)) (i k : Nat) (a : F32) : Except Fault (List (List F32)) := do
  let rec_ ← readAt v i
  let rec_ ← writeAt rec_ k a
  writeAt v i rec_

/-- Body of the loop of `update_enemy_positions`. -/
def updateEnemyBody (enemy_speeds : List F32) (screen_width : ℤ)
    (result : List (List F32)) (i : Nat) : Except Fault (List (List F32)) := do
  -- result[i][0] += result[i][4];
  let x0 ← readAt2 result i 0
  let sx ← readAt2 result i 4
  let result ← writeAt2 result i 0 (F32.add x0 sx)
  -- result[i][1] += enemy_speeds[i];
  let y0 ← readAt2 result i 1
  let sy ← readAt enemy_speeds i
  let result ← writeAt2 result i 1 (F32.add y0 sy)
  -- if (result[i][0] < 0) result[i][0] = 0;
  let x1 ← readAt2 result i 0
  let result ← if F32.lt x1 (F32.ofInt 0) then writeAt2 result i 0 (F32.ofInt 0) else pure result
  -- if (result[i][0] > screen_width) result[i][0] = screen_width;
  let x2 ← readAt2 result i 0
  if F32.lt (F32.ofInt screen_width) x2 then writeAt2 result i 0 (F32.ofInt screen_width)
  else pure result

/-- The function `update_enemy_positions`; `screen_height` is a parameter the body never uses. -/
def update_enemy_positions (enemies : List (List F32)) (enemy_speeds : List F32)
    (screen_width _screen_height : ℤ) : Except Fault (List (List F32)) :=
  List.foldlM (updateEnemyBody enemy_speeds screen_width) enemies (List.range enemies.length)

/-- One iteration of `update_enemy_positions` on a single record, in closed form. -/
def stepRecord (speed : F32) (screen_width : ℤ) : List F32 → List F32
  | e0 :: e1 :: e2 :: e3 :: e4 :: tail =>
      F32.min (F32.max (F32.add e0 e4) (F32.ofInt 0)) (F32.ofInt screen_width)
        :: F32.add e1 speed :: e2 :: e3 :: e4 :: tail
  | r => r

/-- The vector `result` of `update_enemy_positions` after `n` iterations of its loop. -/
def stepPrefix (enemies : List (List F32)) (enemy_speeds : List F32) (screen_width : ℤ)
    (n : Nat) : List (List F32) :=
  (List.range enemies.length).map (fun i =>
    if i < n then stepRecord (enemy_speeds.getD i F32.nan) screen_width (enemies.getD i [])
    else enemies.getD i [])

end Binary32

/-! ## Reading well-formed vectors -/

theorem readAt_of_getElem? {α : Type} {v : List α} {i : Nat} {a : α} (h : v[i]? = some a) :
    readAt v i = Except.ok a := by
  simp [readAt, h]

theorem rectAt_of_getElem? {v : List (List ℚ)} {i : Nat} {x y : ℚ} {rest : List ℚ} (w h : ℚ)
    (hv : v[i]? = some (x :: y :: rest)) : rectAt v i w h = Except.ok (Rect.mk x y w h) := by
  simp [rectAt, readAt, hv, bind, Except.bind, pure, Except.pure]

theorem WellFormed.getElem? {k : Nat} {v : List (List ℚ)} (hv : WellFormed k v) {i : Nat}
    (hi : i < v.length) : ∃ r, v[i]? = some r ∧ k ≤ r.length :=
  ⟨v[i], List.getElem?_eq_getElem hi, hv _ (List.getElem_mem hi)⟩

theorem WellFormed.two {v : List (List ℚ)} (hv : WellFormed 2 v) {i : Nat}
    (hi : i < v.length) : ∃ x y rest, v[i]? = some (x :: y :: rest) := by
  obtain ⟨r, hr, hlen⟩ := hv.getElem? hi
  match r, hlen with
  | x :: y :: rest, _ => exact ⟨x, y, rest, hr⟩

theorem rectAt_ok_rectD {v : List (List ℚ)} (hv : WellFormed 2 v) {i : Nat} (hi : i < v.length)
    (w h : ℚ) : rectAt v i w h = Except.ok (rectD v i w h) := by
  obtain ⟨x, y, rest, hr⟩ := hv.two hi
  simp [rectD, rectAt_of_getElem? w h hr]

theorem rectD_of_getElem? {v : List (List ℚ)} {i : Nat} {x y : ℚ} {rest : List ℚ} (w h : ℚ)
    (hv : v[i]? = some (x :: y :: rest)) : rectD v i w h = Rect.mk x y w h := by
  simp [rectD, rectAt_of_getElem? w h hv]

/-! ## The loops of `check_bullet_enemy_collisions` in closed form -/

theorem bulletEnemyInner_fold (bullet : Rect) (b_idx : Nat) {enemies : List (List ℚ)}
    (he : WellFormed 2 enemies) (enemy_w enemy_h : ℚ) (c : List (Nat × Nat)) :
    ∀ n, n ≤ enemies.length →
      List.foldlM (bulletEnemyInner bullet b_idx enemies enemy_w enemy_h) c (List.range n)
        = Except.ok (c ++ (hitRow bullet enemies enemy_w enemy_h n).map (fun j => (b_idx, j))) := by
  intro n
  induction n with
  | zero => intro _; simp [hitRow, pure, Except.pure]
  | succ n ih =>
    intro hn
    have hlt : n < enemies.length := hn
    rw [List.range_succ, List.foldlM_append, ih (Nat.le_of_lt hlt)]
    by_cases hc : bullet.collides_with (rectD enemies n enemy_w enemy_h) = true
    · simp [bulletEnemyInner, rectAt_ok_rectD he hlt, hitRow, List.range_succ, List.filter_append,
        hc, bind, Except.bind, pure, Except.pure]
    · simp [bulletEnemyInner, rectAt_ok_rectD he hlt, hitRow, List.range_succ, List.filter_append,
        hc, bind, Except.bind, pure, Except.pure]

theorem bulletEnemyOuter_fold {bullets enemies : List (List ℚ)} (hb : WellFormed 2 bullets)
    (he : WellFormed 2 enemies) (bullet_w bullet_h enemy_w enemy_h : ℚ) (c : List (Nat × Nat)) :
    ∀ m, m ≤ bullets.length →
      List.foldlM (bulletEnemyOuter bullets enemies bullet_w bullet_h enemy_w enemy_h) c
          (List.range m)
        = Except.ok (c ++ hitPairs bullets enemies bullet_w bullet_h enemy_w enemy_h m) := by
  intro m
  induction m with
  | zero => intro _; simp [hitPairs, pure, Except.pure]
  | succ m ih =>
    intro hm
    have hlt : m < bullets.length := hm
    rw [List.range_succ, List.foldlM_append, ih (Nat.le_of_lt hlt)]
    simp [bulletEnemyOuter, rectAt_ok_rectD hb hlt, bulletEnemyInner_fold _ _ he, hitPairs,
      List.range_succ, List.flatMap_append, bind, Except.bind, pure, Except.pure]

theorem check_bullet_enemy_collisions_eq {bullets enemies : List (List ℚ)}
    (hb : WellFormed 2 bullets) (he : WellFormed 2 enemies)
    (bullet_w bullet_h enemy_w enemy_h : ℚ) :
    check_bullet_enemy_collisions bullets enemies bullet_w bullet_h enemy_w enemy_h
      = Except.ok (hitPairs bullets enemies bullet_w bullet_h enemy_w enemy_h bullets.length) := by
  simpa [check_bullet_enemy_collisions] using
    bulletEnemyOuter_fold hb he bullet_w bullet_h enemy_w enemy_h [] bullets.length (le_refl _)

theorem mem_hitPairs {bullets enemies : List (List ℚ)} {bullet_w bullet_h enemy_w enemy_h : ℚ}
    {m i j : Nat} :
    (i, j) ∈ hitPairs bullets enemies bullet_w bullet_h enemy_w enemy_h m ↔
      i < m ∧ j < enemies.length ∧
        (rectD bullets i bullet_w bullet_h).collides_with (rectD enemies j enemy_w enemy_h)
          = true := by
  simp only [hitPairs, hitRow, List.mem_flatMap, List.mem_map, List.mem_filter, List.mem_range,
    Prod.mk.injEq]
  constructor
  · rintro ⟨a, ha, b, ⟨hb, hc⟩, rfl, rfl⟩
    exact ⟨ha, hb, hc⟩
  · rintro ⟨hi, hj, hc⟩
    exact ⟨i, hi, j, ⟨hj, hc⟩, rfl, rfl⟩

theorem pairwise_hitPairs (bullets enemies : List (List ℚ))
    (bullet_w bullet_h enemy_w enemy_h : ℚ) (m : Nat) :
    (hitPairs bullets enemies bullet_w bullet_h enemy_w enemy_h m).Pairwise RowMajorLt := by
  induction m with
  | zero => simp [hitPairs]
  | succ m ih =>
    have hsplit : hitPairs bullets enemies bullet_w bullet_h enemy_w enemy_h (m + 1)
        = hitPairs bullets enemies bullet_w bullet_h enemy_w enemy_h m ++
          (hitRow (rectD bullets m bullet_w bullet_h) enemies enemy_w enemy_h enemies.length).map
            (fun j => (m, j)) := by
      simp [hitPairs, List.range_succ, List.flatMap_append]
    rw [hsplit, List.pairwise_append]
    refine ⟨ih, ?_, ?_⟩
    · refine List.Pairwise.map _ ?_ ((List.pairwise_lt_range _).filter _)
      intro a b hab
      exact Or.inr ⟨rfl, hab⟩
    · rintro ⟨i, j⟩ hp ⟨i2, j2⟩ hq
      have hi : i < m := (mem_hitPairs.1 hp).1
      simp only [List.mem_map] at hq
      obtain ⟨_, _, hq⟩ := hq
      simp only [Prod.mk.injEq] at hq
      exact Or.inl (by simp only; omega)

theorem RowMajorLt.ne {p q : Nat × Nat} (h : RowMajorLt p q) : p ≠ q := by
  rintro rfl
  rcases h with h | ⟨_, h⟩ <;> exact absurd h (lt_irrefl _)

theorem count_eq_one_of_nodup {α : Type} [BEq α] [LawfulBEq α] {a : α} :
    ∀ {l : List α}, l.Nodup → a ∈ l → l.count a = 1
  | [], _, h => absurd h (List.not_mem_nil a)
  | b :: l, hnd, h => by
    rw [List.nodup_cons] at hnd
    by_cases hab : b = a
    · subst hab
      have h0 : l.count b = 0 := List.count_eq_zero.2 hnd.1
      simp [List.count_cons, h0]
    · have hmem : a ∈ l := by
        rcases List.mem_cons.1 h with h | h
        · exact absurd h.symm hab
        · exact h
      have hbeq : (b == a) = false := by simpa using hab
      simp [List.count_cons, hbeq, count_eq_one_of_nodup hnd.2 hmem]

theorem nodup_hitPairs (bullets enemies : List (List ℚ))
    (bullet_w bullet_h enemy_w enemy_h : ℚ) (m : Nat) :
    (hitPairs bullets enemies bullet_w bullet_h enemy_w enemy_h m).Nodup :=
  (pairwise_hitPairs bullets enemies bullet_w bullet_h enemy_w enemy_h m).imp
    (fun h => RowMajorLt.ne h)

/-! ## The loop of `check_player_powerup_collisions` in closed form -/

theorem powerupFlags_zero (player_rect : Rect) (powerups : List (List ℚ)) (w h : ℚ) :
    powerupFlags player_rect powerups w h 0 = List.replicate powerups.length false := by
  apply List.ext_getElem?
  intro i
  simp [powerupFlags, List.getElem?_replicate, List.getElem?_range]

theorem playerPowerupBody_flags (player_rect : Rect) {powerups : List (List ℚ)}
    (hp : WellFormed 2 powerups) (w h : ℚ) {n : Nat} (hn : n < powerups.length) :
    playerPowerupBody player_rect powerups w h (powerupFlags player_rect powerups w h n) n
      = Except.ok (powerupFlags player_rect powerups w h (n + 1)) := by
  have hlen : n < (powerupFlags player_rect powerups w h n).length := by
    simpa [powerupFlags] using hn
  have hext : ∀ b : Bool, b = player_rect.collides_with (rectD powerups n w h) →
      (if b then (powerupFlags player_rect powerups w h n).set n true
        else powerupFlags player_rect powerups w h n)
        = powerupFlags player_rect powerups w h (n + 1) := by
    intro b hb
    apply List.ext_getElem?
    intro i
    by_cases hi : i < powerups.length
    · rcases Nat.lt_trichotomy i n with h1 | h1 | h1
      · have h2 : i < n + 1 := by omega
        have h3 : n ≠ i := by omega
        cases b <;> simp [powerupFlags, List.getElem?_set, List.getElem?_range, hi, h1, h2, h3]
      · subst h1
        cases b <;> simp [powerupFlags, List.getElem?_set, List.getElem?_range, hi, ← hb]
      · have h2 : ¬ i < n + 1 := by omega
        have h3 : n ≠ i := by omega
        have h4 : ¬ i < n := by omega
        cases b <;> simp [powerupFlags, List.getElem?_set, List.getElem?_range, hi, h2, h3, h4]
    · have h3 : n ≠ i := by omega
      have h4 : (List.range powerups.length)[i]? = none :=
        List.getElem?_eq_none (by simpa using hi)
      cases b <;> simp [powerupFlags, List.getElem?_set, h4, h3]
  by_cases hc : player_rect.collides_with (rectD powerups n w h) = true
  · have h1 := hext true hc.symm
    simp only [if_true] at h1
    simp [playerPowerupBody, rectAt_ok_rectD hp hn, hc, writeAt, hlen, h1, bind, Except.bind]
  · have hc2 : player_rect.collides_with (rectD powerups n w h) = false := by simpa using hc
    have h1 := hext false hc2.symm
    simp only [Bool.false_eq_true, if_false] at h1
    simp [playerPowerupBody, rectAt_ok_rectD hp hn, hc2, h1, bind, Except.bind, pure,
      Except.pure]

theorem playerPowerup_fold (player_rect : Rect) {powerups : List (List ℚ)}
    (hp : WellFormed 2 powerups) (w h : ℚ) :
    ∀ n, n ≤ powerups.length →
      List.foldlM (playerPowerupBody player_rect powerups w h)
          (List.replicate powerups.length false) (List.range n)
        = Except.ok (powerupFlags player_rect powerups w h n) := by
  intro n
  induction n with
  | zero => intro _; simp [powerupFlags_zero, pure, Except.pure]
  | succ n ih =>
    intro hn
    have hlt : n < powerups.length := hn
    rw [List.range_succ, List.foldlM_append, ih (Nat.le_of_lt hlt)]
    simp [playerPowerupBody_flags player_rect hp w h hlt, bind, Except.bind, pure, Except.pure]

theorem check_player_powerup_collisions_eq {px py : ℚ} {prest : List ℚ}
    {powerups : List (List ℚ)} (hp : WellFormed 2 powerups) (pw ph w h : ℚ) :
    check_player_powerup_collisions (px :: py :: prest) powerups pw ph w h
      = Except.ok (powerupFlags (Rect.mk px py pw ph) powerups w h powerups.length) := by
  simp [check_player_powerup_collisions, readAt, playerPowerup_fold _ hp w h _ (le_refl _),
    bind, Except.bind]

/-! ## The loop of `update_enemy_positions` in closed form -/

theorem updateEnemyBody_eq {enemy_speeds : List ℚ} (screen_width : ℤ) {result : List (List ℚ)}
    {i : Nat} {e0 e1 e2 e3 e4 s : ℚ} {tail : List ℚ}
    (hr : result[i]? = some (e0 :: e1 :: e2 :: e3 :: e4 :: tail))
    (hs : enemy_speeds[i]? = some s) :
    updateEnemyBody enemy_speeds screen_width result i
      = Except.ok (result.set i
          (stepRecord s screen_width (e0 :: e1 :: e2 :: e3 :: e4 :: tail))) := by
  have hi : i < result.length := by
    rcases List.getElem?_eq_some.1 hr with ⟨h, _⟩
    exact h
  by_cases h1 : e0 + e4 < 0
  · by_cases h2 : (0 : ℚ) > (screen_width : ℚ)
    · have hm : min (max (e0 + e4) 0) (screen_width : ℚ) = screen_width := by
        rw [max_eq_right h1.le, min_eq_right h2.le]
      simp [updateEnemyBody, readAt2, writeAt2, writeAt, readAt, hr, hs, hi, h1, h2, stepRecord,
        bind, Except.bind, pure, Except.pure, List.getElem?_set, hm]
    · have hm : min (max (e0 + e4) 0) (screen_width : ℚ) = 0 := by
        rw [max_eq_right h1.le, min_eq_left (not_lt.1 h2)]
      simp [updateEnemyBody, readAt2, writeAt2, writeAt, readAt, hr, hs, hi, h1, h2, stepRecord,
        bind, Except.bind, pure, Except.pure, List.getElem?_set, hm]
  · by_cases h2 : e0 + e4 > (screen_width : ℚ)
    · have hm : min (max (e0 + e4) 0) (screen_width : ℚ) = screen_width := by
        rw [max_eq_left (not_lt.1 h1), min_eq_right h2.le]
      simp [updateEnemyBody, readAt2, writeAt2, writeAt, readAt, hr, hs, hi, h1, h2, stepRecord,
        bind, Except.bind, pure, Except.pure, List.getElem?_set, hm]
    · have hm : min (max (e0 + e4) 0) (screen_width : ℚ) = e0 + e4 := by
        rw [max_eq_left (not_lt.1 h1), min_eq_left (not_lt.1 h2)]
      simp [updateEnemyBody, readAt2, writeAt2, writeAt, readAt, hr, hs, hi, h1, h2, stepRecord,
        bind, Except.bind, pure, Except.pure, List.getElem?_set, hm]

theorem WellFormed.five {v : List (List ℚ)} (hv : WellFormed 5 v) {i : Nat}
    (hi : i < v.length) :
    ∃ e0 e1 e2 e3 e4 tail, v[i]? = some (e0 :: e1 :: e2 :: e3 :: e4 :: tail) := by
  obtain ⟨r, hr, hlen⟩ := hv.getElem? hi
  match r, hlen with
  | e0 :: e1 :: e2 :: e3 :: e4 :: tail, _ => exact ⟨e0, e1, e2, e3, e4, tail, hr⟩

theorem getElem?_stepPrefix (enemies : List (List ℚ)) (enemy_speeds : List ℚ) (screen_width : ℤ)
    (n i : Nat) :
    (stepPrefix enemies enemy_speeds screen_width n)[i]? =
      if i < n then (enemies[i]?).map (stepRecord (enemy_speeds.getD i 0) screen_width)
      else enemies[i]? := by
  by_cases hi : i < enemies.length
  · have h1 : enemies[i]? = some enemies[i] := List.getElem?_eq_getElem hi
    have h3 : enemies.getD i [] = enemies[i] := by simp [List.getD, h1]
    have h2 : (List.range enemies.length)[i]? = some i := List.getElem?_range hi
    by_cases hn : i < n <;> simp [stepPrefix, h1, h2, h3, hn]
  · have h1 : enemies[i]? = none := List.getElem?_eq_none (by omega)
    have h2 : (List.range enemies.length)[i]? = none :=
      List.getElem?_eq_none (by simpa using hi)
    simp [stepPrefix, h1, h2]

theorem stepPrefix_zero (enemies : List (List ℚ)) (enemy_speeds : List ℚ) (screen_width : ℤ) :
    stepPrefix enemies enemy_speeds screen_width 0 = enemies := by
  apply List.ext_getElem?
  intro i
  simp [getElem?_stepPrefix]

theorem updateEnemyBody_stepPrefix {enemies : List (List ℚ)} {enemy_speeds : List ℚ}
    (he : WellFormed 5 enemies) (hs : enemies.length ≤ enemy_speeds.length) (screen_width : ℤ)
    {n : Nat} (hn : n < enemies.length) :
    updateEnemyBody enemy_speeds screen_width (stepPrefix enemies enemy_speeds screen_width n) n
      = Except.ok (stepPrefix enemies enemy_speeds screen_width (n + 1)) := by
  obtain ⟨e0, e1, e2, e3, e4, tail, hr⟩ := he.five hn
  have hsn : n < enemy_speeds.length := lt_of_lt_of_le hn hs
  have hsp : enemy_speeds[n]? = some (enemy_speeds.getD n 0) := by
    simp [List.getD, List.getElem?_eq_getElem hsn]
  have hcur : (stepPrefix enemies enemy_speeds screen_width n)[n]?
      = some (e0 :: e1 :: e2 :: e3 :: e4 :: tail) := by
    simp [getElem?_stepPrefix, hr]
  rw [updateEnemyBody_eq screen_width hcur hsp]
  congr 1
  apply List.ext_getElem?
  intro i
  have hlen : (stepPrefix enemies enemy_speeds screen_width n).length = enemies.length := by
    simp [stepPrefix]
  rcases Nat.lt_trichotomy i n with h1 | h1 | h1
  · have h2 : i < n + 1 := by omega
    have h3 : n ≠ i := by omega
    simp [List.getElem?_set, getElem?_stepPrefix, h1, h2, h3]
  · subst h1
    simp [List.getElem?_set, getElem?_stepPrefix, hlen, hn, hr]
  · have h2 : ¬ i < n + 1 := by omega
    have h3 : n ≠ i := by omega
    have h4 : ¬ i < n := by omega
    simp [List.getElem?_set, getElem?_stepPrefix, h2, h3, h4]

theorem updateEnemy_fold {enemies : List (List ℚ)} {enemy_speeds : List ℚ}
    (he : WellFormed 5 enemies) (hs : enemies.length ≤ enemy_speeds.length) (screen_width : ℤ) :
    ∀ n, n ≤ enemies.length →
      List.foldlM (updateEnemyBody enemy_speeds screen_width) enemies (List.range n)
        = Except.ok (stepPrefix enemies enemy_speeds screen_width n) := by
  intro n
  induction n with
  | zero => intro _; simp [stepPrefix_zero, pure, Except.pure]
  | succ n ih =>
    intro hn
    have hlt : n < enemies.length := hn
    rw [List.range_succ, List.foldlM_append, ih (Nat.le_of_lt hlt)]
    simp [updateEnemyBody_stepPrefix he hs screen_width hlt, bind, Except.bind, pure, Except.pure]

theorem update_enemy_positions_eq {enemies : List (List ℚ)} {enemy_speeds : List ℚ}
    (he : WellFormed 5 enemies) (hs : enemies.length ≤ enemy_speeds.length)
    (screen_width screen_height : ℤ) :
    update_enemy_positions enemies enemy_speeds screen_width screen_height
      = Except.ok (stepPrefix enemies enemy_speeds screen_width enemies.length) :=
  updateEnemy_fold he hs screen_width enemies.length (le_refl _)

theorem getElem?_update_result {enemies : List (List ℚ)} {enemy_speeds : List ℚ}
    (he : WellFormed 5 enemies) (hs : enemies.length ≤ enemy_speeds.length) (screen_width : ℤ)
    {i : Nat} (hi : i < enemies.length) :
    ∃ e0 e1 e2 e3 e4 tail s,
      enemies[i]? = some (e0 :: e1 :: e2 :: e3 :: e4 :: tail) ∧ enemy_speeds[i]? = some s ∧
      (stepPrefix enemies enemy_speeds screen_width enemies.length)[i]?
        = some (min (max (e0 + e4) 0) (screen_width : ℚ) :: (e1 + s) :: e2 :: e3 :: e4 :: tail) := by
  obtain ⟨e0, e1, e2, e3, e4, tail, hr⟩ := he.five hi
  have hsn : i < enemy_speeds.length := lt_of_lt_of_le hi hs
  refine ⟨e0, e1, e2, e3, e4, tail, enemy_speeds[i], hr, List.getElem?_eq_getElem hsn, ?_⟩
  have hd : enemy_speeds.getD i 0 = enemy_speeds[i] := by
    simp [List.getD, List.getElem?_eq_getElem hsn]
  simp only [getElem?_stepPrefix, hi, if_true, hr, Option.map_some', hd, stepRecord]

/-! ## The claims -/

/-- C1: on well-formed input `check_bullet_enemy_collisions` returns a list in which a pair
`(i, j)` occurs if and only if `i` indexes a bullet, `j` indexes an enemy and the bullet's
rectangle overlaps the enemy's rectangle under `collides_with`; every pair that occurs does so
exactly once. -/
theorem check_bullet_enemy_collisions_pairs (bullets enemies : List (List ℚ))
    (bullet_w bullet_h enemy_w enemy_h : ℚ)
    (hb : ∀ r ∈ bullets, 2 ≤ r.length) (he : ∀ r ∈ enemies, 2 ≤ r.length) :
    ∃ l, check_bullet_enemy_collisions bullets enemies bullet_w bullet_h enemy_w enemy_h
        = Except.ok l ∧
      (∀ i j, (i, j) ∈ l ↔
        i < bullets.length ∧ j < enemies.length ∧
        ∃ bx by_ brest ex ey erest,
          bullets[i]? = some (bx :: by_ :: brest) ∧ enemies[j]? = some (ex :: ey :: erest) ∧
          (Rect.mk bx by_ bullet_w bullet_h).collides_with (Rect.mk ex ey enemy_w enemy_h)
            = true) ∧
      (∀ p ∈ l, l.count p = 1) := by
  refine ⟨_, check_bullet_enemy_collisions_eq hb he bullet_w bullet_h enemy_w enemy_h, ?_, ?_⟩
  · intro i j
    rw [mem_hitPairs]
    constructor
    · rintro ⟨hi, hj, hc⟩
      obtain ⟨bx, by_, brest, hbi⟩ := WellFormed.two hb hi
      obtain ⟨ex, ey, erest, hej⟩ := WellFormed.two he hj
      rw [rectD_of_getElem? _ _ hbi, rectD_of_getElem? _ _ hej] at hc
      exact ⟨hi, hj, bx, by_, brest, ex, ey, erest, hbi, hej, hc⟩
    · rintro ⟨hi, hj, bx, by_, brest, ex, ey, erest, hbi, hej, hc⟩
      rw [rectD_of_getElem? _ _ hbi, rectD_of_getElem? _ _ hej]
      exact ⟨hi, hj, hc⟩
  · intro p hp
    exact count_eq_one_of_nodup (nodup_hitPairs _ _ _ _ _ _ _) hp

/-- Witness for C1: bullets `[(0,0),(100,100)]` against enemies `[(1,1),(200,200)]`, all extents
5, give exactly `[(0,0)]`. -/
theorem check_bullet_enemy_collisions_pairs_witness :
    check_bullet_enemy_collisions [[0, 0], [100, 100]] [[1, 1], [200, 200]] 5 5 5 5
        = Except.ok [(0, 0)] ∧
    ∃ l, check_bullet_enemy_collisions [[0, 0], [100, 100]] [[1, 1], [200, 200]] 5 5 5 5
        = Except.ok l ∧
      (∀ i j, (i, j) ∈ l ↔
        i < [[(0 : ℚ), 0], [100, 100]].length ∧ j < [[(1 : ℚ), 1], [200, 200]].length ∧
        ∃ bx by_ brest ex ey erest,
          [[(0 : ℚ), 0], [100, 100]][i]? = some (bx :: by_ :: brest) ∧
          [[(1 : ℚ), 1], [200, 200]][j]? = some (ex :: ey :: erest) ∧
          (Rect.mk bx by_ 5 5).collides_with (Rect.mk ex ey 5 5) = true) ∧
      (∀ p ∈ l, l.count p = 1) :=
  ⟨by norm_num [check_bullet_enemy_collisions, bulletEnemyOuter, bulletEnemyInner, rectAt,
      readAt, Rect.collides_with, List.range, List.range.loop, bind, Except.bind, pure,
      Except.pure],
    check_bullet_enemy_collisions_pairs [[0, 0], [100, 100]] [[1, 1], [200, 200]] 5 5 5 5
      (by simp) (by simp)⟩

/-- C2: on well-formed input the list returned by `check_bullet_enemy_collisions` is strictly
increasing in the lexicographic order on (bullet index, enemy index), that is, row-major. -/
theorem check_bullet_enemy_collisions_row_major (bullets enemies : List (List ℚ))
    (bullet_w bullet_h enemy_w enemy_h : ℚ)
    (hb : ∀ r ∈ bullets, 2 ≤ r.length) (he : ∀ r ∈ enemies, 2 ≤ r.length) :
    ∃ l, check_bullet_enemy_collisions bullets enemies bullet_w bullet_h enemy_w enemy_h
        = Except.ok l ∧
      l.Pairwise (fun p q => p.1 < q.1 ∨ (p.1 = q.1 ∧ p.2 < q.2)) :=
  ⟨_, check_bullet_enemy_collisions_eq hb he bullet_w bullet_h enemy_w enemy_h,
    pairwise_hitPairs _ _ _ _ _ _ _⟩

/-- Witness for C2: two bullets that both hit both enemies give the four pairs row by row. -/
theorem check_bullet_enemy_collisions_row_major_witness :
    check_bullet_enemy_collisions [[0, 0], [1, 1]] [[0, 0], [1, 1]] 1 1 1 1
        = Except.ok [(0, 0), (0, 1), (1, 0), (1, 1)] ∧
    ∃ l, check_bullet_enemy_collisions [[0, 0], [1, 1]] [[0, 0], [1, 1]] 1 1 1 1 = Except.ok l ∧
      l.Pairwise (fun p q => p.1 < q.1 ∨ (p.1 = q.1 ∧ p.2 < q.2)) :=
  ⟨by norm_num [check_bullet_enemy_collisions, bulletEnemyOuter, bulletEnemyInner, rectAt,
      readAt, Rect.collides_with, List.range, List.range.loop, bind, Except.bind, pure,
      Except.pure],
    check_bullet_enemy_collisions_row_major [[0, 0], [1, 1]] [[0, 0], [1, 1]] 1 1 1 1
      (by simp) (by simp)⟩

/-- C4: `collides_with` is symmetric, for rectangles of any extents. -/
theorem collides_with_comm (A B : Rect) : A.collides_with B = B.collides_with A := by
  simp only [Rect.collides_with]
  cases decide (A.x + A.width < B.x) <;> cases decide (B.x + B.width < A.x) <;>
    cases decide (A.y + A.height < B.y) <;> cases decide (B.y + B.height < A.y) <;> rfl

/-- C5: a rectangle with non-negative width and height collides with itself. -/
theorem collides_with_self (A : Rect) (hw : 0 ≤ A.width) (hh : 0 ≤ A.height) :
    A.collides_with A = true := by
  have h1 : ¬ A.x + A.width < A.x := by linarith
  have h2 : ¬ A.y + A.height < A.y := by linarith
  simp [Rect.collides_with, h1, h2]

/-- Witness for C5: the rectangle `(3, 4, 0, 7)`. -/
theorem collides_with_self_witness :
    (Rect.mk 3 4 0 7).collides_with (Rect.mk 3 4 0 7) = true :=
  collides_with_self (Rect.mk 3 4 0 7) (by norm_num) (by norm_num)

/-- C6: a rectangle `B` of non-negative extents that starts exactly at the right edge of a
rectangle `A` of non-negative extents, at the same height, collides with `A`. -/
theorem collides_with_edge_touching (A B : Rect) (hAw : 0 ≤ A.width) (hAh : 0 ≤ A.height)
    (hBw : 0 ≤ B.width) (hBh : 0 ≤ B.height) (hx : B.x = A.x + A.width) (hy : B.y = A.y) :
    A.collides_with B = true := by
  have h1 : ¬ A.x + A.width < B.x := by linarith
  have h2 : ¬ B.x + B.width < A.x := by linarith
  have h3 : ¬ A.y + A.height < B.y := by linarith
  have h4 : ¬ B.y + B.height < A.y := by linarith
  simp [Rect.collides_with, h1, h2, h3, h4]

/-- Witness for C6: the rectangles `(0,0,10,10)` and `(10,0,10,10)` overlap. -/
theorem collides_with_edge_touching_witness :
    (Rect.mk 0 0 10 10).collides_with (Rect.mk 10 0 10 10) = true :=
  collides_with_edge_touching (Rect.mk 0 0 10 10) (Rect.mk 10 0 10 10)
    (by norm_num) (by norm_num) (by norm_num) (by norm_num) (by norm_num) (by norm_num)

/-- C8: for a player record and powerup records of at least 2 components,
`check_player_powerup_collisions` returns a list of booleans as long as `powerups` whose `i`-th
element is `collides_with` applied to the player rectangle and the rectangle of powerup `i`. -/
theorem check_player_powerup_collisions_flags (player : List ℚ) (powerups : List (List ℚ))
    (player_w player_h powerup_w powerup_h : ℚ)
    (hp : 2 ≤ player.length) (hu : ∀ r ∈ powerups, 2 ≤ r.length) :
    ∃ px py prest l, player = px :: py :: prest ∧
      check_player_powerup_collisions player powerups player_w player_h powerup_w powerup_h
        = Except.ok l ∧
      l.length = powerups.length ∧
      ∀ i, i < powerups.length →
        ∃ ux uy urest, powerups[i]? = some (ux :: uy :: urest) ∧
          l[i]? = some ((Rect.mk px py player_w player_h).collides_with
            (Rect.mk ux uy powerup_w powerup_h)) := by
  match player, hp with
  | px :: py :: prest, _ =>
    refine ⟨px, py, prest, _, rfl,
      check_player_powerup_collisions_eq hu player_w player_h powerup_w powerup_h, ?_, ?_⟩
    · simp [powerupFlags]
    · intro i hi
      obtain ⟨ux, uy, urest, hui⟩ := WellFormed.two hu hi
      refine ⟨ux, uy, urest, hui, ?_⟩
      have h2 : (List.range powerups.length)[i]? = some i := List.getElem?_range hi
      simp [powerupFlags, h2, hi, rectD_of_getElem? _ _ hui]

/-- Witness for C8: a player at `(0,0)` against powerups `[(1,1),(200,200)]`, all extents 5,
gives `[true, false]`. -/
theorem check_player_powerup_collisions_flags_witness :
    check_player_powerup_collisions [0, 0] [[1, 1], [200, 200]] 5 5 5 5
        = Except.ok [true, false] ∧
    ∃ px py prest l, [(0 : ℚ), 0] = px :: py :: prest ∧
      check_player_powerup_collisions [0, 0] [[1, 1], [200, 200]] 5 5 5 5 = Except.ok l ∧
      l.length = [[(1 : ℚ), 1], [200, 200]].length ∧
      ∀ i, i < [[(1 : ℚ), 1], [200, 200]].length →
        ∃ ux uy urest, [[(1 : ℚ), 1], [200, 200]][i]? = some (ux :: uy :: urest) ∧
          l[i]? = some ((Rect.mk px py 5 5).collides_with (Rect.mk ux uy 5 5)) :=
  ⟨by norm_num [check_player_powerup_collisions, playerPowerupBody, rectAt, writeAt, readAt,
      Rect.collides_with, List.range, List.range.loop, List.replicate, bind, Except.bind, pure,
      Except.pure],
    check_player_powerup_collisions_flags [0, 0] [[1, 1], [200, 200]] 5 5 5 5
      (by simp) (by simp)⟩

/-- C11: when source and target coincide `calculate_aim_direction` returns the zero vector; it
takes the early return, so no quotient by the zero distance is formed. -/
theorem calculate_aim_direction_coincident (x y : ℝ) :
    calculate_aim_direction Real.sqrt x y x y = some [0, 0] := by
  simp [calculate_aim_direction]

/-- C12: for distinct source and target, `calculate_aim_direction` (with the exact square root)
returns a vector of magnitude 1 that is a positive multiple of `(px - ex, py - ey)`. -/
theorem calculate_aim_direction_unit (ex ey px py : ℝ) (h : (ex, ey) ≠ (px, py)) :
    ∃ dx dy, calculate_aim_direction Real.sqrt ex ey px py = some [dx, dy] ∧
      dx * dx + dy * dy = 1 ∧
      ∃ c : ℝ, 0 < c ∧ dx = c * (px - ex) ∧ dy = c * (py - ey) := by
  have hs : 0 < (px - ex) * (px - ex) + (py - ey) * (py - ey) := by
    by_contra hle
    have h0 : (px - ex) * (px - ex) + (py - ey) * (py - ey) = 0 :=
      le_antisymm (not_lt.1 hle) (add_nonneg (mul_self_nonneg _) (mul_self_nonneg _))
    have hx : px - ex = 0 := by nlinarith [mul_self_nonneg (px - ex), mul_self_nonneg (py - ey)]
    have hy : py - ey = 0 := by nlinarith [mul_self_nonneg (px - ex), mul_self_nonneg (py - ey)]
    exact h (Prod.ext (by simpa using (sub_eq_zero.1 hx).symm)
      (by simpa using (sub_eq_zero.1 hy).symm))
  have hd : 0 < Real.sqrt ((px - ex) * (px - ex) + (py - ey) * (py - ey)) := Real.sqrt_pos.2 hs
  have hsq := Real.mul_self_sqrt hs.le
  refine ⟨(px - ex) / Real.sqrt ((px - ex) * (px - ex) + (py - ey) * (py - ey)),
    (py - ey) / Real.sqrt ((px - ex) * (px - ex) + (py - ey) * (py - ey)), ?_, ?_, ?_⟩
  · simp [calculate_aim_direction, fdiv, hd.ne', bind, Option.bind, pure]
  · rw [div_mul_div_comm, div_mul_div_comm, ← add_div, hsq]
    exact div_self hs.ne'
  · refine ⟨1 / Real.sqrt ((px - ex) * (px - ex) + (py - ey) * (py - ey)),
      one_div_pos.2 hd, ?_, ?_⟩ <;> ring

/-- Witness for C12: from `(0,0)` towards `(3,4)`. -/
theorem calculate_aim_direction_unit_witness :
    ∃ dx dy, calculate_aim_direction Real.sqrt 0 0 3 4 = some [dx, dy] ∧
      dx * dx + dy * dy = 1 ∧
      ∃ c : ℝ, 0 < c ∧ dx = c * (3 - 0) ∧ dy = c * (4 - 0) :=
  calculate_aim_direction_unit 0 0 3 4
    (fun h => absurd (congrArg Prod.fst h) (by norm_num))

/-- C13: `point_distance` and `calculate_landmark_distance` (with the exact square root) are
symmetric, non-negative, and zero on coincident points. -/
theorem distance_symm_nonneg_zero (x1 y1 z1 x2 y2 z2 : ℝ) :
    (point_distance Real.sqrt x1 y1 x2 y2 = point_distance Real.sqrt x2 y2 x1 y1 ∧
      0 ≤ point_distance Real.sqrt x1 y1 x2 y2 ∧
      point_distance Real.sqrt x1 y1 x1 y1 = 0) ∧
    (calculate_landmark_distance Real.sqrt x1 y1 z1 x2 y2 z2
        = calculate_landmark_distance Real.sqrt x2 y2 z2 x1 y1 z1 ∧
      0 ≤ calculate_landmark_distance Real.sqrt x1 y1 z1 x2 y2 z2 ∧
      calculate_landmark_distance Real.sqrt x1 y1 z1 x1 y1 z1 = 0) := by
  refine ⟨⟨?_, Real.sqrt_nonneg _, ?_⟩, ⟨?_, Real.sqrt_nonneg _, ?_⟩⟩
  · simp only [point_distance]
    congr 1
    ring
  · simp [point_distance]
  · simp only [calculate_landmark_distance]
    congr 1
    ring
  · simp [calculate_landmark_distance]

/-- C14: `is_pinch_detected` is true exactly when the landmark distance is strictly below the
threshold; it is false when the distance equals the threshold, and false for every pair of
points when the threshold is not positive. -/
theorem is_pinch_detected_iff (tx ty tz ix iy iz threshold : ℝ) :
    (is_pinch_detected Real.sqrt tx ty tz ix iy iz threshold = true ↔
      calculate_landmark_distance Real.sqrt tx ty tz ix iy iz < threshold) ∧
    (calculate_landmark_distance Real.sqrt tx ty tz ix iy iz = threshold →
      is_pinch_detected Real.sqrt tx ty tz ix iy iz threshold = false) ∧
    (threshold ≤ 0 → is_pinch_detected Real.sqrt tx ty tz ix iy iz threshold = false) := by
  refine ⟨by simp [is_pinch_detected], ?_, ?_⟩
  · intro h
    simp [is_pinch_detected, h]
  · intro h
    have hn : 0 ≤ calculate_landmark_distance Real.sqrt tx ty tz ix iy iz := Real.sqrt_nonneg _
    simp [is_pinch_detected]
    linarith

/-- C15: when neither input range is degenerate, `map_finger_position` sends the midpoint of
the input range to the midpoint of the output range. -/
theorem map_finger_position_midpoint (F : Type) [LinearOrderedField F]
    (in_x_min in_x_max in_y_min in_y_max out_x_min out_x_max out_y_min out_y_max : F)
    (hx : in_x_max ≠ in_x_min) (hy : in_y_max ≠ in_y_min) :
    map_finger_position ((in_x_min + in_x_max) / 2) ((in_y_min + in_y_max) / 2)
        in_x_min in_x_max in_y_min in_y_max out_x_min out_x_max out_y_min out_y_max
      = some [(out_x_min + out_x_max) / 2, (out_y_min + out_y_max) / 2] := by
  have hx0 : in_x_max - in_x_min ≠ 0 := sub_ne_zero.2 hx
  have hy0 : in_y_max - in_y_min ≠ 0 := sub_ne_zero.2 hy
  simp only [map_finger_position, fdiv, hx0, hy0, if_false, bind, Option.bind, pure]
  congr 2
  · field_simp
    ring
  · congr 1
    field_simp
    ring

/-- Witness for C15: the centre `(1/2, 1/2)` of the unit square goes to the centre
`(400, 300)` of an 800 by 600 screen. -/
theorem map_finger_position_midpoint_witness :
    map_finger_position (((0 : ℚ) + 1) / 2) ((0 + 1) / 2) 0 1 0 1 0 800 0 600
      = some [(0 + 800) / 2, (0 + 600) / 2] :=
  map_finger_position_midpoint ℚ 0 1 0 1 0 800 0 600 (by norm_num) (by norm_num)

/-! ## Faults of the loops -/

theorem foldlM_range_ok {σ : Type} (f : σ → Nat → Except Fault σ) :
    ∀ (n : Nat) (c l : σ), List.foldlM f c (List.range n) = Except.ok l →
      ∀ i, i < n → ∃ c1 c2, f c1 i = Except.ok c2 := by
  intro n
  induction n with
  | zero => intro c l _ i hi; exact absurd hi (Nat.not_lt_zero i)
  | succ n ih =>
    intro c l h i hi
    rw [List.range_succ, List.foldlM_append] at h
    cases hfold : List.foldlM f c (List.range n) with
    | error e => simp [hfold, bind, Except.bind] at h
    | ok c1 =>
      rcases Nat.lt_succ_iff_lt_or_eq.1 hi with h1 | h1
      · exact ih c c1 hfold i h1
      · subst h1
        refine ⟨c1, l, ?_⟩
        simp only [hfold, bind, Except.bind, List.foldlM_cons, List.foldlM_nil] at h
        cases hf : f c1 i with
        | error e => simp [hf] at h
        | ok c2 =>
          simp only [hf, pure, Except.pure] at h
          exact h

theorem eq_outOfBounds_of_not_ok {σ : Type} {r : Except Fault σ}
    (h : ∀ l, r ≠ Except.ok l) : r = Except.error Fault.outOfBounds := by
  cases r with
  | ok l => exact absurd rfl (h l)
  | error e => cases e; rfl

theorem readAt_ok_iff {α : Type} {v : List α} {i : Nat} {a : α} :
    readAt v i = Except.ok a ↔ v[i]? = some a := by
  unfold readAt
  cases hv : v[i]? with
  | none => simp
  | some b => simp

theorem rectAt_ok_length {v : List (List ℚ)} {i : Nat} {w h : ℚ} {r : Rect}
    (hr : rectAt v i w h = Except.ok r) : ∃ rec_, v[i]? = some rec_ ∧ 2 ≤ rec_.length := by
  cases hv : v[i]? with
  | none => simp [rectAt, readAt, hv, bind, Except.bind] at hr
  | some rec_ =>
    refine ⟨rec_, rfl, ?_⟩
    match rec_, hv with
    | [], hv => simp [rectAt, readAt, hv, bind, Except.bind] at hr
    | [_], hv => simp [rectAt, readAt, hv, bind, Except.bind] at hr
    | _ :: _ :: _, _ => simp

theorem wellFormed_of_rectAt_ok {v : List (List ℚ)} (w h : ℚ)
    (hall : ∀ i, i < v.length → ∃ r, rectAt v i w h = Except.ok r) : WellFormed 2 v := by
  intro rec_ hmem
  obtain ⟨i, hi, hget⟩ := List.getElem_of_mem hmem
  obtain ⟨r, hr⟩ := hall i hi
  obtain ⟨rec2, hrec2, hlen⟩ := rectAt_ok_length hr
  rw [List.getElem?_eq_getElem hi, hget] at hrec2
  cases hrec2
  exact hlen

theorem bulletEnemyInner_ok {bullet : Rect} {b_idx : Nat} {enemies : List (List ℚ)}
    {enemy_w enemy_h : ℚ} {c c2 : List (Nat × Nat)} {e_idx : Nat}
    (h : bulletEnemyInner bullet b_idx enemies enemy_w enemy_h c e_idx = Except.ok c2) :
    ∃ r, rectAt enemies e_idx enemy_w enemy_h = Except.ok r := by
  cases hr : rectAt enemies e_idx enemy_w enemy_h with
  | error e => simp [bulletEnemyInner, hr, bind, Except.bind] at h
  | ok r => exact ⟨r, rfl⟩

theorem bulletEnemyOuter_ok {bullets enemies : List (List ℚ)} {bullet_w bullet_h enemy_w enemy_h : ℚ}
    {c c2 : List (Nat × Nat)} {b_idx : Nat}
    (h : bulletEnemyOuter bullets enemies bullet_w bullet_h enemy_w enemy_h c b_idx
      = Except.ok c2) :
    (∃ r, rectAt bullets b_idx bullet_w bullet_h = Except.ok r) ∧ WellFormed 2 enemies := by
  cases hr : rectAt bullets b_idx bullet_w bullet_h with
  | error e => simp [bulletEnemyOuter, hr, bind, Except.bind] at h
  | ok r =>
    refine ⟨⟨r, rfl⟩, wellFormed_of_rectAt_ok enemy_w enemy_h ?_⟩
    intro j hj
    simp only [bulletEnemyOuter, hr, bind, Except.bind] at h
    obtain ⟨c1, c3, hstep⟩ := foldlM_range_ok _ _ _ _ h j hj
    exact bulletEnemyInner_ok hstep

theorem check_bullet_enemy_collisions_ok {bullets enemies : List (List ℚ)}
    {bullet_w bullet_h enemy_w enemy_h : ℚ} {l : List (Nat × Nat)}
    (h : check_bullet_enemy_collisions bullets enemies bullet_w bullet_h enemy_w enemy_h
      = Except.ok l) :
    WellFormed 2 bullets ∧ (bullets ≠ [] → WellFormed 2 enemies) := by
  constructor
  · refine wellFormed_of_rectAt_ok bullet_w bullet_h ?_
    intro i hi
    obtain ⟨c1, c2, hstep⟩ := foldlM_range_ok _ _ _ _ h i hi
    exact (bulletEnemyOuter_ok hstep).1
  · intro hne
    have h0 : 0 < bullets.length := List.length_pos.2 hne
    obtain ⟨c1, c2, hstep⟩ := foldlM_range_ok _ _ _ _ h 0 h0
    exact (bulletEnemyOuter_ok hstep).2

theorem playerEnemyBody_ok {player_rect : Rect} {enemies : List (List ℚ)} {enemy_w enemy_h : ℚ}
    {c c2 : List Nat} {e_idx : Nat}
    (h : playerEnemyBody player_rect enemies enemy_w enemy_h c e_idx = Except.ok c2) :
    ∃ r, rectAt enemies e_idx enemy_w enemy_h = Except.ok r := by
  cases hr : rectAt enemies e_idx enemy_w enemy_h with
  | error e => simp [playerEnemyBody, hr, bind, Except.bind] at h
  | ok r => exact ⟨r, rfl⟩

theorem playerPowerupBody_ok {player_rect : Rect} {powerups : List (List ℚ)} {w h : ℚ}
    {c c2 : List Bool} {i : Nat}
    (hb : playerPowerupBody player_rect powerups w h c i = Except.ok c2) :
    ∃ r, rectAt powerups i w h = Except.ok r := by
  cases hr : rectAt powerups i w h with
  | error e => simp [playerPowerupBody, hr, bind, Except.bind] at hb
  | ok r => exact ⟨r, rfl⟩

theorem check_player_enemy_collisions_ok {player : List ℚ} {enemies : List (List ℚ)}
    {player_w player_h enemy_w enemy_h : ℚ} {l : List Nat}
    (h : check_player_enemy_collisions player enemies player_w player_h enemy_w enemy_h
      = Except.ok l) :
    2 ≤ player.length ∧ WellFormed 2 enemies := by
  match player, h with
  | [], h => simp [check_player_enemy_collisions, readAt, bind, Except.bind] at h
  | [_], h => simp [check_player_enemy_collisions, readAt, bind, Except.bind] at h
  | px :: py :: prest, h =>
    refine ⟨by simp, wellFormed_of_rectAt_ok enemy_w enemy_h ?_⟩
    intro j hj
    simp only [check_player_enemy_collisions, readAt, List.getElem?_cons_zero,
      List.getElem?_cons_succ, bind, Except.bind] at h
    obtain ⟨c1, c2, hstep⟩ := foldlM_range_ok _ _ _ _ h j hj
    exact playerEnemyBody_ok hstep

theorem check_player_powerup_collisions_ok {player : List ℚ} {powerups : List (List ℚ)}
    {player_w player_h powerup_w powerup_h : ℚ} {l : List Bool}
    (h : check_player_powerup_collisions player powerups player_w player_h powerup_w powerup_h
      = Except.ok l) :
    2 ≤ player.length ∧ WellFormed 2 powerups := by
  match player, h with
  | [], h => simp [check_player_powerup_collisions, readAt, bind, Except.bind] at h
  | [_], h => simp [check_player_powerup_collisions, readAt, bind, Except.bind] at h
  | px :: py :: prest, h =>
    refine ⟨by simp, wellFormed_of_rectAt_ok powerup_w powerup_h ?_⟩
    intro j hj
    simp only [check_player_powerup_collisions, readAt, List.getElem?_cons_zero,
      List.getElem?_cons_succ, bind, Except.bind] at h
    obtain ⟨c1, c2, hstep⟩ := foldlM_range_ok _ _ _ _ h j hj
    exact playerPowerupBody_ok hstep

theorem not_wellFormed_of_short {v : List (List ℚ)} (h : ∃ r ∈ v, r.length < 2) :
    ¬ WellFormed 2 v := by
  obtain ⟨r, hr, hlen⟩ := h
  intro hw
  exact absurd (hw r hr) (by omega)

/-- C16, as stated, fails: the bullet record `[0]` has one component, and
`check_bullet_enemy_collisions` reads its missing second component instead of reporting the
malformed record. -/
theorem check_bullet_enemy_collisions_short_record :
    (∃ r ∈ [[(0 : ℚ)]], r.length < 2) ∧
    check_bullet_enemy_collisions [[0]] [] 1 1 1 1 = Except.error Fault.outOfBounds := by
  refine ⟨⟨[0], by simp, by simp⟩, ?_⟩
  simp [check_bullet_enemy_collisions, bulletEnemyOuter, rectAt, readAt, List.range,
    List.range.loop, bind, Except.bind]

/-- C16, amended: whenever a record that the code reads has fewer than 2 components, each of
`check_bullet_enemy_collisions`, `check_player_enemy_collisions` and
`check_player_powerup_collisions` reads outside that record (the only fault of the embedding);
none of them reports the malformed input. -/
theorem short_record_read_out_of_bounds :
    (∀ (bullets enemies : List (List ℚ)) (bullet_w bullet_h enemy_w enemy_h : ℚ),
      ((∃ r ∈ bullets, r.length < 2) ∨ (bullets ≠ [] ∧ ∃ r ∈ enemies, r.length < 2)) →
      check_bullet_enemy_collisions bullets enemies bullet_w bullet_h enemy_w enemy_h
        = Except.error Fault.outOfBounds) ∧
    (∀ (player : List ℚ) (enemies : List (List ℚ)) (player_w player_h enemy_w enemy_h : ℚ),
      (player.length < 2 ∨ ∃ r ∈ enemies, r.length < 2) →
      check_player_enemy_collisions player enemies player_w player_h enemy_w enemy_h
        = Except.error Fault.outOfBounds) ∧
    (∀ (player : List ℚ) (powerups : List (List ℚ)) (player_w player_h powerup_w powerup_h : ℚ),
      (player.length < 2 ∨ ∃ r ∈ powerups, r.length < 2) →
      check_player_powerup_collisions player powerups player_w player_h powerup_w powerup_h
        = Except.error Fault.outOfBounds) := by
  refine ⟨?_, ?_, ?_⟩
  · intro bullets enemies bw bh ew eh hbad
    apply eq_outOfBounds_of_not_ok
    intro l hl
    obtain ⟨hb, he⟩ := check_bullet_enemy_collisions_ok hl
    rcases hbad with hbad | ⟨hne, hbad⟩
    · exact not_wellFormed_of_short hbad hb
    · exact not_wellFormed_of_short hbad (he hne)
  · intro player enemies pw ph ew eh hbad
    apply eq_outOfBounds_of_not_ok
    intro l hl
    obtain ⟨hp, he⟩ := check_player_enemy_collisions_ok hl
    rcases hbad with hbad | hbad
    · omega
    · exact not_wellFormed_of_short hbad he
  · intro player powerups pw ph uw uh hbad
    apply eq_outOfBounds_of_not_ok
    intro l hl
    obtain ⟨hp, he⟩ := check_player_powerup_collisions_ok hl
    rcases hbad with hbad | hbad
    · omega
    · exact not_wellFormed_of_short hbad he

/-- Witness for C16 amended: a well-formed player against an enemy record with one component,
and a one-component player against no powerups. -/
theorem short_record_read_out_of_bounds_witness :
    check_player_enemy_collisions [0, 0] [[1, 1], [7]] 5 5 5 5
        = Except.error Fault.outOfBounds ∧
    check_player_powerup_collisions [0] [] 5 5 5 5 = Except.error Fault.outOfBounds :=
  ⟨short_record_read_out_of_bounds.2.1 [0, 0] [[1, 1], [7]] 5 5 5 5
      (Or.inr ⟨[7], by simp, by simp⟩),
    short_record_read_out_of_bounds.2.2 [0] [] 5 5 5 5 (Or.inl (by simp))⟩

/-! ## The loop of `check_player_enemy_collisions` in closed form -/

theorem playerEnemy_fold (player_rect : Rect) {enemies : List (List ℚ)}
    (he : WellFormed 2 enemies) (enemy_w enemy_h : ℚ) (c : List Nat) :
    ∀ n, n ≤ enemies.length →
      List.foldlM (playerEnemyBody player_rect enemies enemy_w enemy_h) c (List.range n)
        = Except.ok (c ++ hitRow player_rect enemies enemy_w enemy_h n) := by
  intro n
  induction n with
  | zero => intro _; simp [hitRow, pure, Except.pure]
  | succ n ih =>
    intro hn
    have hlt : n < enemies.length := hn
    rw [List.range_succ, List.foldlM_append, ih (Nat.le_of_lt hlt)]
    by_cases hc : player_rect.collides_with (rectD enemies n enemy_w enemy_h) = true
    · simp [playerEnemyBody, rectAt_ok_rectD he hlt, hitRow, List.range_succ, List.filter_append,
        hc, bind, Except.bind, pure, Except.pure]
    · simp [playerEnemyBody, rectAt_ok_rectD he hlt, hitRow, List.range_succ, List.filter_append,
        hc, bind, Except.bind, pure, Except.pure]

theorem check_player_enemy_collisions_eq {px py : ℚ} {prest : List ℚ}
    {enemies : List (List ℚ)} (he : WellFormed 2 enemies) (pw ph w h : ℚ) :
    check_player_enemy_collisions (px :: py :: prest) enemies pw ph w h
      = Except.ok (hitRow (Rect.mk px py pw ph) enemies w h enemies.length) := by
  simp [check_player_enemy_collisions, readAt, playerEnemy_fold _ he w h [] _ (le_refl _),
    bind, Except.bind]

theorem mem_hitRow {bullet : Rect} {enemies : List (List ℚ)} {enemy_w enemy_h : ℚ} {n j : Nat} :
    j ∈ hitRow bullet enemies enemy_w enemy_h n ↔
      j < n ∧ bullet.collides_with (rectD enemies j enemy_w enemy_h) = true := by
  simp [hitRow]

theorem getElem?_powerupFlags_true {player_rect : Rect} {powerups : List (List ℚ)} {w h : ℚ}
    {j : Nat} :
    (powerupFlags player_rect powerups w h powerups.length)[j]? = some true ↔
      j < powerups.length ∧ player_rect.collides_with (rectD powerups j w h) = true := by
  by_cases hj : j < powerups.length
  · have h2 : (List.range powerups.length)[j]? = some j := List.getElem?_range hj
    simp [powerupFlags, h2, hj]
  · have h2 : (List.range powerups.length)[j]? = none :=
      List.getElem?_eq_none (by simpa using hj)
    simp [powerupFlags, h2, hj]

theorem stepPrefix_congr (enemies : List (List ℚ)) {s1 s2 : List ℚ} (screen_width : ℤ) (n : Nat)
    (h : ∀ i, i < enemies.length → s1.getD i 0 = s2.getD i 0) :
    stepPrefix enemies s1 screen_width n = stepPrefix enemies s2 screen_width n := by
  unfold stepPrefix
  apply List.map_congr_left
  intro i hi
  rw [h i (List.mem_range.1 hi)]

/-- C17: on well-formed input `check_player_enemy_collisions` returns a strictly ascending list
of indices, and `j` is in it exactly when flag `j` of `check_player_powerup_collisions` on the
same arguments is true, and exactly when `(0, j)` is among the pairs of
`check_bullet_enemy_collisions` run with the player as the only bullet. -/
theorem check_player_enemy_collisions_agrees (player : List ℚ) (enemies : List (List ℚ))
    (player_w player_h enemy_w enemy_h : ℚ)
    (hp : 2 ≤ player.length) (he : ∀ r ∈ enemies, 2 ≤ r.length) :
    ∃ idxs flags pairs,
      check_player_enemy_collisions player enemies player_w player_h enemy_w enemy_h
        = Except.ok idxs ∧
      check_player_powerup_collisions player enemies player_w player_h enemy_w enemy_h
        = Except.ok flags ∧
      check_bullet_enemy_collisions [player] enemies player_w player_h enemy_w enemy_h
        = Except.ok pairs ∧
      idxs.Pairwise (fun a b => a < b) ∧
      ∀ j, (j ∈ idxs ↔ flags[j]? = some true) ∧ (j ∈ idxs ↔ (0, j) ∈ pairs) := by
  match player, hp with
  | px :: py :: prest, _ =>
    have hb : WellFormed 2 [px :: py :: prest] := by
      intro r hr
      rw [List.mem_singleton.1 hr]
      simp
    refine ⟨_, _, _, check_player_enemy_collisions_eq he player_w player_h enemy_w enemy_h,
      check_player_powerup_collisions_eq he player_w player_h enemy_w enemy_h,
      check_bullet_enemy_collisions_eq hb he player_w player_h enemy_w enemy_h,
      (List.pairwise_lt_range _).filter _, ?_⟩
    intro j
    have hrect : rectD [px :: py :: prest] 0 player_w player_h
        = Rect.mk px py player_w player_h :=
      rectD_of_getElem? player_w player_h rfl
    constructor
    · rw [mem_hitRow, getElem?_powerupFlags_true]
    · rw [mem_hitRow, mem_hitPairs, hrect]
      simp

/-- Witness for C17: a player at `(0,0)` against enemies `[(1,1),(200,200),(3,3)]`, all extents
5, hits enemies 0 and 2. -/
theorem check_player_enemy_collisions_agrees_witness :
    check_player_enemy_collisions [0, 0] [[1, 1], [200, 200], [3, 3]] 5 5 5 5
        = Except.ok [0, 2] ∧
    ∃ idxs flags pairs,
      check_player_enemy_collisions [0, 0] [[1, 1], [200, 200], [3, 3]] 5 5 5 5
        = Except.ok idxs ∧
      check_player_powerup_collisions [0, 0] [[1, 1], [200, 200], [3, 3]] 5 5 5 5
        = Except.ok flags ∧
      check_bullet_enemy_collisions [[0, 0]] [[1, 1], [200, 200], [3, 3]] 5 5 5 5
        = Except.ok pairs ∧
      idxs.Pairwise (fun a b => a < b) ∧
      ∀ j, (j ∈ idxs ↔ flags[j]? = some true) ∧ (j ∈ idxs ↔ (0, j) ∈ pairs) :=
  ⟨by norm_num [check_player_enemy_collisions, playerEnemyBody, rectAt, readAt,
      Rect.collides_with, List.range, List.range.loop, bind, Except.bind, pure, Except.pure],
    check_player_enemy_collisions_agrees [0, 0] [[1, 1], [200, 200], [3, 3]] 5 5 5 5
      (by simp) (by simp)⟩

/-- C18: on well-formed input `update_enemy_positions` returns as many records as it was given,
record `i` keeps its length and every component other than 0 and 1, and the result depends
neither on `screen_height` nor on the entries of `enemy_speeds` from index `|enemies|` on. -/
theorem update_enemy_positions_frame (enemies : List (List ℚ)) (enemy_speeds : List ℚ)
    (screen_width screen_height : ℤ)
    (he : ∀ r ∈ enemies, 5 ≤ r.length) (hs : enemies.length ≤ enemy_speeds.length) :
    ∃ rs, update_enemy_positions enemies enemy_speeds screen_width screen_height
        = Except.ok rs ∧
      rs.length = enemies.length ∧
      (∀ i, i < enemies.length →
        ∃ e r, enemies[i]? = some e ∧ rs[i]? = some r ∧ r.length = e.length ∧
          ∀ k, k ≠ 0 → k ≠ 1 → r[k]? = e[k]?) ∧
      (∀ screen_height2 : ℤ,
        update_enemy_positions enemies enemy_speeds screen_width screen_height2
          = Except.ok rs) ∧
      (∀ enemy_speeds2 : List ℚ,
        enemy_speeds2.take enemies.length = enemy_speeds.take enemies.length →
        update_enemy_positions enemies enemy_speeds2 screen_width screen_height
          = Except.ok rs) := by
  refine ⟨_, update_enemy_positions_eq he hs screen_width screen_height, ?_, ?_, ?_, ?_⟩
  · simp [stepPrefix]
  · intro i hi
    obtain ⟨e0, e1, e2, e3, e4, tail, s, hr, _, hres⟩ :=
      getElem?_update_result he hs screen_width hi
    refine ⟨_, _, hr, hres, by simp, ?_⟩
    intro k h0 h1
    match k, h0, h1 with
    | k + 2, _, _ => simp
  · intro screen_height2
    exact update_enemy_positions_eq he hs screen_width screen_height2
  · intro enemy_speeds2 htake
    have hlen : enemies.length ≤ enemy_speeds2.length := by
      have h1 := congrArg List.length htake
      simp only [List.length_take] at h1
      omega
    rw [update_enemy_positions_eq he hlen screen_width screen_height]
    congr 1
    apply stepPrefix_congr
    intro i hi
    have h1 : enemy_speeds2[i]? = enemy_speeds[i]? := by
      rw [← List.getElem?_take_of_lt hi, htake, List.getElem?_take_of_lt hi]
    simp [List.getD, h1]

/-- Witness for C18: two enemies with seven and five components, and a speed list with one
entry more than needed. -/
theorem update_enemy_positions_frame_witness :
    update_enemy_positions [[1, 2, 3, 4, 5, 6, 7], [0, 0, 9, 8, -4]] [10, 20, 30] 100 50
        = Except.ok [[6, 12, 3, 4, 5, 6, 7], [0, 20, 9, 8, -4]] ∧
    ∃ rs, update_enemy_positions [[1, 2, 3, 4, 5, 6, 7], [0, 0, 9, 8, -4]] [10, 20, 30] 100 50
        = Except.ok rs ∧
      rs.length = [[(1 : ℚ), 2, 3, 4, 5, 6, 7], [0, 0, 9, 8, -4]].length ∧
      (∀ i, i < [[(1 : ℚ), 2, 3, 4, 5, 6, 7], [0, 0, 9, 8, -4]].length →
        ∃ e r, [[(1 : ℚ), 2, 3, 4, 5, 6, 7], [0, 0, 9, 8, -4]][i]? = some e ∧
          rs[i]? = some r ∧ r.length = e.length ∧
          ∀ k, k ≠ 0 → k ≠ 1 → r[k]? = e[k]?) ∧
      (∀ screen_height2 : ℤ,
        update_enemy_positions [[1, 2, 3, 4, 5, 6, 7], [0, 0, 9, 8, -4]] [10, 20, 30] 100
          screen_height2 = Except.ok rs) ∧
      (∀ enemy_speeds2 : List ℚ,
        enemy_speeds2.take [[(1 : ℚ), 2, 3, 4, 5, 6, 7], [0, 0, 9, 8, -4]].length
          = [(10 : ℚ), 20, 30].take [[(1 : ℚ), 2, 3, 4, 5, 6, 7], [0, 0, 9, 8, -4]].length →
        update_enemy_positions [[1, 2, 3, 4, 5, 6, 7], [0, 0, 9, 8, -4]] enemy_speeds2 100 50
          = Except.ok rs) :=
  ⟨by norm_num [update_enemy_positions, updateEnemyBody, readAt2, writeAt2, writeAt, readAt,
      List.range, List.range.loop, bind, Except.bind, pure, Except.pure],
    update_enemy_positions_frame [[1, 2, 3, 4, 5, 6, 7], [0, 0, 9, 8, -4]] [10, 20, 30] 100 50
      (by simp) (by simp)⟩

/-- C20: under the implicit preconditions no index access of `update_enemy_positions` or of
`check_bullet_enemy_collisions` is out of bounds (the call returns a result); and
`update_enemy_positions` does read out of bounds on an input whose `enemy_speeds` is shorter
than `enemies`, and on an input with an enemy record of four components. -/
theorem index_safety :
    (∀ (enemies : List (List ℚ)) (enemy_speeds : List ℚ) (screen_width screen_height : ℤ),
      (∀ r ∈ enemies, 5 ≤ r.length) → enemies.length ≤ enemy_speeds.length →
      ∃ rs, update_enemy_positions enemies enemy_speeds screen_width screen_height
        = Except.ok rs) ∧
    (∀ (bullets enemies : List (List ℚ)) (bullet_w bullet_h enemy_w enemy_h : ℚ),
      (∀ r ∈ bullets, 2 ≤ r.length) → (∀ r ∈ enemies, 2 ≤ r.length) →
      ∃ l, check_bullet_enemy_collisions bullets enemies bullet_w bullet_h enemy_w enemy_h
        = Except.ok l) ∧
    update_enemy_positions [[0, 0, 0, 0, 0]] [] 0 0 = Except.error Fault.outOfBounds ∧
    update_enemy_positions [[0, 0, 0, 0]] [0] 0 0 = Except.error Fault.outOfBounds := by
  refine ⟨?_, ?_, ?_, ?_⟩
  · intro enemies enemy_speeds screen_width screen_height he hs
    exact ⟨_, update_enemy_positions_eq he hs screen_width screen_height⟩
  · intro bullets enemies bw bh ew eh hb he
    exact ⟨_, check_bullet_enemy_collisions_eq hb he bw bh ew eh⟩
  · norm_num [update_enemy_positions, updateEnemyBody, readAt2, writeAt2, writeAt, readAt,
      List.range, List.range.loop, bind, Except.bind, pure, Except.pure]
  · norm_num [update_enemy_positions, updateEnemyBody, readAt2, writeAt2, writeAt, readAt,
      List.range, List.range.loop, bind, Except.bind, pure, Except.pure]

/-- Witness for C20: both safe calls on small well-formed inputs. -/
theorem index_safety_witness :
    (∃ rs, update_enemy_positions [[1, 1, 0, 0, 2]] [3] 10 10 = Except.ok rs) ∧
    (∃ l, check_bullet_enemy_collisions [[0, 0]] [[1, 1]] 2 2 2 2 = Except.ok l) :=
  ⟨index_safety.1 [[1, 1, 0, 0, 2]] [3] 10 10 (by simp) (by simp),
    index_safety.2.1 [[0, 0]] [[1, 1]] 2 2 2 2 (by simp) (by simp)⟩

/-! ## The binary32 model: rounding and order -/

namespace Binary32

theorem roundHalfEven_cases (q : ℚ) : roundHalfEven q = ⌊q⌋ ∨
    ((1 : ℚ) / 2 ≤ q - ⌊q⌋ ∧ roundHalfEven q = ⌊q⌋ + 1) := by
  simp only [roundHalfEven]
  by_cases h1 : q - (⌊q⌋ : ℚ) < 1 / 2
  · left; rw [if_pos h1]
  · by_cases h2 : (1 : ℚ) / 2 < q - (⌊q⌋ : ℚ)
    · right; exact ⟨not_lt.1 h1, by rw [if_neg h1, if_pos h2]⟩
    · by_cases h3 : ⌊q⌋ % 2 = 0
      · left; rw [if_neg h1, if_neg h2, if_pos h3]
      · right; exact ⟨not_lt.1 h1, by rw [if_neg h1, if_neg h2, if_neg h3]⟩

theorem le_roundHalfEven {n : ℤ} {q : ℚ} (h : (n : ℚ) ≤ q) : n ≤ roundHalfEven q := by
  have hf : n ≤ ⌊q⌋ := Int.le_floor.2 h
  rcases roundHalfEven_cases q with h1 | ⟨_, h1⟩ <;> omega

theorem roundHalfEven_le {n : ℤ} {q : ℚ} (h : q ≤ (n : ℚ)) : roundHalfEven q ≤ n := by
  have hf : ⌊q⌋ ≤ n := by
    have := Int.floor_le q
    exact_mod_cast (Int.cast_le (R := ℚ)).1 (le_trans this h)
  rcases roundHalfEven_cases q with h1 | ⟨hd, h1⟩
  · omega
  · have hlt : (⌊q⌋ : ℚ) < n := by linarith
    have : ⌊q⌋ < n := by exact_mod_cast hlt
    omega

theorem roundHalfEven_intCast (z : ℤ) : roundHalfEven (z : ℚ) = z :=
  le_antisymm (roundHalfEven_le (le_refl _)) (le_roundHalfEven (le_refl _))

theorem ulpExp_of_binade {q : ℚ} (E : ℤ) (hlo : (2 : ℚ) ^ E ≤ |q|) (hhi : |q| < 2 ^ (E + 1))
    (hE : -126 ≤ E) : ulpExp q = E - 23 := by
  have hpos : 0 < |q| := lt_of_lt_of_le (zpow_pos (by norm_num) E) hlo
  have h1 : E ≤ Int.log 2 |q| := by
    apply (Int.zpow_le_iff_le_log (by norm_num) hpos).1
    simpa using hlo
  have h2 : Int.log 2 |q| < E + 1 := by
    apply (Int.lt_zpow_iff_log_lt (by norm_num) hpos).1
    simpa using hhi
  have h3 : Int.log 2 |q| = E := by omega
  simp [ulpExp, h3, max_eq_left hE]

theorem ulpExp_ge (q : ℚ) : -149 ≤ ulpExp q := by
  unfold ulpExp
  have := le_max_right (Int.log 2 |q|) (-126)
  omega

theorem F32.round_eq_fin {q : ℚ} (h : |roundQ q| < 2 ^ 128) : F32.round q = F32.fin (roundQ q) := by
  simp [F32.round, not_le.2 h]

theorem roundHalfEven_eval (q : ℚ) (f : ℤ) (hf1 : (f : ℚ) ≤ q) (hf2 : q < (f : ℚ) + 1) :
    roundHalfEven q =
      if q - (f : ℚ) < 1 / 2 then f else if 1 / 2 < q - (f : ℚ) then f + 1
      else if f % 2 = 0 then f else f + 1 := by
  have hf : ⌊q⌋ = f := Int.floor_eq_iff.2 ⟨hf1, hf2⟩
  simp only [roundHalfEven, hf]

theorem roundQ_of_binade {q : ℚ} (E f : ℤ) (hq : 0 < q) (hlo : (2 : ℚ) ^ E ≤ q)
    (hhi : q < 2 ^ (E + 1)) (hE : -126 ≤ E) (hf1 : (f : ℚ) ≤ q / 2 ^ (E - 23))
    (hf2 : q / 2 ^ (E - 23) < (f : ℚ) + 1) :
    roundQ q =
      ((if q / 2 ^ (E - 23) - (f : ℚ) < 1 / 2 then f
        else if 1 / 2 < q / 2 ^ (E - 23) - (f : ℚ) then f + 1
        else if f % 2 = 0 then f else f + 1 : ℤ) : ℚ) * 2 ^ (E - 23) := by
  rw [← abs_of_pos hq] at hlo hhi
  rw [roundQ, ulpExp_of_binade E hlo hhi hE, roundHalfEven_eval _ f hf1 hf2]

theorem roundQ_zero : roundQ 0 = 0 := by
  have h : roundHalfEven ((0 : ℤ) : ℚ) = 0 := roundHalfEven_intCast 0
  simp only [Int.cast_zero] at h
  simp [roundQ, h]

theorem roundQ_of_grid {q : ℚ} {n : ℤ} (h : q / 2 ^ ulpExp q = (n : ℚ)) : roundQ q = q := by
  have hpos : (0 : ℚ) < 2 ^ ulpExp q := zpow_pos (by norm_num) _
  rw [roundQ, h, roundHalfEven_intCast, ← h]
  field_simp

theorem ulpExp_le_of_lt {q : ℚ} {e : ℤ} (hq : q ≠ 0) (he : -149 ≤ e) (h : |q| < 2 ^ (24 + e)) :
    ulpExp q ≤ e := by
  have hpos : 0 < |q| := abs_pos.2 hq
  have h2 : Int.log 2 |q| < 24 + e := by
    apply (Int.lt_zpow_iff_log_lt (by norm_num) hpos).1
    simpa using h
  unfold ulpExp
  rcases max_cases (Int.log 2 |q|) (-126) with ⟨h3, _⟩ | ⟨h3, _⟩ <;> omega

theorem zpow_mul_intCast (m : ℤ) {d : ℤ} (hd : 0 ≤ d) :
    ∃ n : ℤ, (m : ℚ) * 2 ^ d = (n : ℚ) := by
  refine ⟨m * 2 ^ d.toNat, ?_⟩
  have h : (2 : ℚ) ^ d = 2 ^ d.toNat := by
    rw [← zpow_natCast, Int.toNat_of_nonneg hd]
  rw [h]
  push_cast
  ring

theorem Representable.abs_lt {q : ℚ} {m e : ℤ} (hm : |m| < 2 ^ 24) (hq : q = (m : ℚ) * 2 ^ e) :
    |q| < 2 ^ (24 + e) := by
  have h2 : (0 : ℚ) < 2 ^ e := zpow_pos (by norm_num) _
  have hm2 : |(m : ℚ)| < 2 ^ (24 : ℤ) := by
    have h3 : ((|m| : ℤ) : ℚ) < ((2 ^ 24 : ℤ) : ℚ) := by exact_mod_cast hm
    rw [Int.cast_abs] at h3
    have h4 : (((2 : ℤ) ^ 24 : ℤ) : ℚ) = 2 ^ (24 : ℤ) := by norm_num
    rw [h4] at h3
    exact h3
  rw [hq, abs_mul, abs_of_pos h2, zpow_add₀ (by norm_num : (2 : ℚ) ≠ 0)]
  exact mul_lt_mul_of_pos_right hm2 h2

theorem Representable.div_ulp {x : ℚ} {m e u : ℤ} (hx : x = (m : ℚ) * 2 ^ e) (hu : u ≤ e) :
    ∃ n : ℤ, x / 2 ^ u = (n : ℚ) := by
  obtain ⟨n, hn⟩ := zpow_mul_intCast m (sub_nonneg.2 hu)
  refine ⟨n, ?_⟩
  rw [← hn, hx, zpow_sub₀ (by norm_num : (2 : ℚ) ≠ 0)]
  ring

theorem roundQ_of_representable {q : ℚ} (h : Representable q) : roundQ q = q := by
  obtain ⟨m, e, hm, he, _, hq⟩ := h
  by_cases h0 : q = 0
  · rw [h0, roundQ_zero]
  · obtain ⟨n, hn⟩ := Representable.div_ulp hq
      (ulpExp_le_of_lt h0 he (Representable.abs_lt hm hq))
    exact roundQ_of_grid hn

theorem Representable.abs_lt_max {q : ℚ} (h : Representable q) : |q| < 2 ^ 128 := by
  obtain ⟨m, e, hm, _, he, hq⟩ := h
  have h1 := Representable.abs_lt hm hq
  have h2 : (2 : ℚ) ^ (24 + e) ≤ 2 ^ (128 : ℤ) :=
    zpow_le_zpow_right₀ (by norm_num) (by omega)
  have h3 : (2 : ℚ) ^ (128 : ℤ) = 2 ^ 128 := by norm_num
  linarith

theorem F32.round_of_representable {q : ℚ} (h : Representable q) : F32.round q = F32.fin q := by
  have hr := roundQ_of_representable h
  rw [F32.round_eq_fin (by rw [hr]; exact h.abs_lt_max), hr]

theorem representable_intCast {n : ℤ} (h : |n| ≤ 2 ^ 24) : Representable (n : ℚ) := by
  by_cases hlt : |n| < 2 ^ 24
  · exact ⟨n, 0, hlt, by norm_num, by norm_num, by simp⟩
  · have habs : |n| = 2 ^ 24 := le_antisymm h (not_lt.1 hlt)
    rcases abs_eq (by norm_num : (0 : ℤ) ≤ 2 ^ 24) |>.1 habs with h1 | h1
    · exact ⟨2 ^ 23, 1, by norm_num, by norm_num, by norm_num, by rw [h1]; norm_num⟩
    · exact ⟨-2 ^ 23, 1, by norm_num, by norm_num, by norm_num, by rw [h1]; norm_num⟩

theorem F32.ofInt_of_abs_le {n : ℤ} (h : |n| ≤ 2 ^ 24) : F32.ofInt n = F32.fin (n : ℚ) :=
  F32.round_of_representable (representable_intCast h)

theorem roundQ_nonneg {q : ℚ} (h : 0 ≤ q) : 0 ≤ roundQ q := by
  have hpos : (0 : ℚ) < 2 ^ ulpExp q := zpow_pos (by norm_num) _
  have h1 : ((0 : ℤ) : ℚ) ≤ q / 2 ^ ulpExp q := by
    simpa using div_nonneg h hpos.le
  have h2 : (0 : ℤ) ≤ roundHalfEven (q / 2 ^ ulpExp q) := le_roundHalfEven h1
  have h3 : (0 : ℚ) ≤ (roundHalfEven (q / 2 ^ ulpExp q) : ℚ) := by exact_mod_cast h2
  exact mul_nonneg h3 hpos.le

theorem roundQ_nonpos {q : ℚ} (h : q ≤ 0) : roundQ q ≤ 0 := by
  have hpos : (0 : ℚ) < 2 ^ ulpExp q := zpow_pos (by norm_num) _
  have h1 : q / 2 ^ ulpExp q ≤ ((0 : ℤ) : ℚ) := by
    simpa using div_nonpos_of_nonpos_of_nonneg h hpos.le
  have h2 : roundHalfEven (q / 2 ^ ulpExp q) ≤ (0 : ℤ) := roundHalfEven_le h1
  have h3 : (roundHalfEven (q / 2 ^ ulpExp q) : ℚ) ≤ 0 := by exact_mod_cast h2
  exact mul_nonpos_of_nonpos_of_nonneg h3 hpos.le

/-- In a normal binade the exponent of the unit in the last place is the binade's minus 23. -/
theorem zpow_ulpExp_le_abs {s : ℚ} (hs : s ≠ 0) (hu : -149 < ulpExp s) :
    (2 : ℚ) ^ (ulpExp s + 23) ≤ |s| := by
  have hpos : 0 < |s| := abs_pos.2 hs
  have hlog : ulpExp s + 23 = Int.log 2 |s| := by
    unfold ulpExp at hu ⊢
    rcases max_cases (Int.log 2 |s|) (-126) with ⟨h3, _⟩ | ⟨h3, _⟩ <;> omega
  rw [hlog]
  simpa using Int.zpow_log_le_self (by norm_num : 1 < 2) hpos

theorem zpow_le_roundQ {s : ℚ} (hs : 0 < s) (hu : -149 < ulpExp s) :
    (2 : ℚ) ^ (ulpExp s + 23) ≤ roundQ s := by
  have hpos : (0 : ℚ) < 2 ^ ulpExp s := zpow_pos (by norm_num) _
  have h1 := zpow_ulpExp_le_abs hs.ne' hu
  rw [abs_of_pos hs, zpow_add₀ (by norm_num : (2 : ℚ) ≠ 0)] at h1
  have h2 : (((2 : ℤ) ^ 23 : ℤ) : ℚ) ≤ s / 2 ^ ulpExp s := by
    rw [le_div_iff₀ hpos]
    have h4 : (((2 : ℤ) ^ 23 : ℤ) : ℚ) = 2 ^ (23 : ℤ) := by norm_num
    rw [h4]
    linarith
  have h3 : ((2 : ℤ) ^ 23 : ℤ) ≤ roundHalfEven (s / 2 ^ ulpExp s) := le_roundHalfEven h2
  have h5 : (((2 : ℤ) ^ 23 : ℤ) : ℚ) ≤ (roundHalfEven (s / 2 ^ ulpExp s) : ℚ) := by
    exact_mod_cast h3
  have h4 : (((2 : ℤ) ^ 23 : ℤ) : ℚ) = 2 ^ (23 : ℤ) := by norm_num
  rw [zpow_add₀ (by norm_num : (2 : ℚ) ≠ 0), roundQ, mul_comm ((2 : ℚ) ^ ulpExp s)]
  rw [h4] at h5
  exact mul_le_mul_of_nonneg_right h5 hpos.le

theorem roundQ_le_neg_zpow {s : ℚ} (hs : s < 0) (hu : -149 < ulpExp s) :
    roundQ s ≤ -(2 : ℚ) ^ (ulpExp s + 23) := by
  have hpos : (0 : ℚ) < 2 ^ ulpExp s := zpow_pos (by norm_num) _
  have h1 := zpow_ulpExp_le_abs hs.ne hu
  rw [abs_of_neg hs, zpow_add₀ (by norm_num : (2 : ℚ) ≠ 0)] at h1
  have h4 : (((-(2 : ℤ) ^ 23 : ℤ)) : ℚ) = -(2 ^ (23 : ℤ)) := by norm_num
  have h2 : s / 2 ^ ulpExp s ≤ ((-(2 : ℤ) ^ 23 : ℤ) : ℚ) := by
    rw [div_le_iff₀ hpos, h4]
    linarith
  have h3 : roundHalfEven (s / 2 ^ ulpExp s) ≤ (-(2 : ℤ) ^ 23 : ℤ) := roundHalfEven_le h2
  have h5 : (roundHalfEven (s / 2 ^ ulpExp s) : ℚ) ≤ ((-(2 : ℤ) ^ 23 : ℤ) : ℚ) := by
    exact_mod_cast h3
  rw [h4] at h5
  rw [zpow_add₀ (by norm_num : (2 : ℚ) ≠ 0), roundQ]
  have h6 := mul_le_mul_of_nonneg_right h5 hpos.le
  linarith

/-- Rounding never crosses a representable value from above: a representable lower bound of
the exact result is a lower bound of the rounded one. -/
theorem le_roundQ_of_representable {x s : ℚ} (hx : Representable x) (h : x ≤ s) :
    x ≤ roundQ s := by
  obtain ⟨m, e, hm, he, _, hxe⟩ := hx
  have hpos : (0 : ℚ) < 2 ^ ulpExp s := zpow_pos (by norm_num) _
  by_cases hu : ulpExp s ≤ e
  · obtain ⟨n, hn⟩ := Representable.div_ulp hxe hu
    have h1 : (n : ℚ) ≤ s / 2 ^ ulpExp s := by
      rw [← hn]
      exact div_le_div_of_nonneg_right h hpos.le
    have h2 : n ≤ roundHalfEven (s / 2 ^ ulpExp s) := le_roundHalfEven h1
    have h3 : (n : ℚ) ≤ (roundHalfEven (s / 2 ^ ulpExp s) : ℚ) := by exact_mod_cast h2
    have h4 : x = (n : ℚ) * 2 ^ ulpExp s := by
      rw [← hn]
      field_simp
    rw [h4, roundQ]
    exact mul_le_mul_of_nonneg_right h3 hpos.le
  · have hu2 : -149 < ulpExp s := by omega
    have hxlt : |x| < 2 ^ (ulpExp s + 23) := by
      have h1 := Representable.abs_lt hm hxe
      have h2 : (2 : ℚ) ^ (24 + e) ≤ 2 ^ (ulpExp s + 23) :=
        zpow_le_zpow_right₀ (by norm_num) (by omega)
      linarith
    rcases lt_trichotomy s 0 with hs | hs | hs
    · have h1 := zpow_ulpExp_le_abs hs.ne hu2
      rw [abs_of_neg hs] at h1
      have h2 : |x| = -x := abs_of_neg (lt_of_le_of_lt h hs)
      rw [h2] at hxlt
      linarith
    · rw [hs, roundQ_zero]
      rw [hs] at h
      exact h
    · have h1 := zpow_le_roundQ hs hu2
      have h2 := le_abs_self x
      linarith

/-- Rounding never crosses a representable value from below. -/
theorem roundQ_le_of_representable {x s : ℚ} (hx : Representable x) (h : s ≤ x) :
    roundQ s ≤ x := by
  obtain ⟨m, e, hm, he, _, hxe⟩ := hx
  have hpos : (0 : ℚ) < 2 ^ ulpExp s := zpow_pos (by norm_num) _
  by_cases hu : ulpExp s ≤ e
  · obtain ⟨n, hn⟩ := Representable.div_ulp hxe hu
    have h1 : s / 2 ^ ulpExp s ≤ (n : ℚ) := by
      rw [← hn]
      exact div_le_div_of_nonneg_right h hpos.le
    have h2 : roundHalfEven (s / 2 ^ ulpExp s) ≤ n := roundHalfEven_le h1
    have h3 : (roundHalfEven (s / 2 ^ ulpExp s) : ℚ) ≤ (n : ℚ) := by exact_mod_cast h2
    have h4 : x = (n : ℚ) * 2 ^ ulpExp s := by
      rw [← hn]
      field_simp
    rw [h4, roundQ]
    exact mul_le_mul_of_nonneg_right h3 hpos.le
  · have hu2 : -149 < ulpExp s := by omega
    have hxlt : |x| < 2 ^ (ulpExp s + 23) := by
      have h1 := Representable.abs_lt hm hxe
      have h2 : (2 : ℚ) ^ (24 + e) ≤ 2 ^ (ulpExp s + 23) :=
        zpow_le_zpow_right₀ (by norm_num) (by omega)
      linarith
    rcases lt_trichotomy s 0 with hs | hs | hs
    · have h1 := roundQ_le_neg_zpow hs hu2
      have h2 := neg_abs_le x
      linarith
    · rw [hs, roundQ_zero]
      rw [hs] at h
      exact h
    · have h1 := zpow_ulpExp_le_abs hs.ne' hu2
      rw [abs_of_pos hs] at h1
      have h2 : |x| = x := abs_of_pos (lt_of_lt_of_le hs h)
      rw [h2] at hxlt
      linarith

theorem F32.round_ne_nan (q : ℚ) : F32.round q ≠ F32.nan := by
  unfold F32.round
  split_ifs <;> simp

theorem F32.ofInt_zero : F32.ofInt 0 = F32.fin 0 := by
  simpa using @F32.ofInt_of_abs_le 0 (by norm_num)

theorem F32.le_round_of_le {x s : ℚ} (hx : Representable x) (h : x ≤ s) :
    F32.le (F32.fin x) (F32.round s) = true := by
  have h1 := le_roundQ_of_representable hx h
  unfold F32.round
  split_ifs with h2 h3
  · exfalso
    have h4 := roundQ_nonpos h3.le
    have h5 := hx.abs_lt_max
    have h6 := neg_abs_le x
    rw [abs_of_nonpos h4] at h2
    linarith
  · rfl
  · simpa [F32.le] using h1

theorem F32.round_le_of_le {x s : ℚ} (hx : Representable x) (h : s ≤ x) :
    F32.le (F32.round s) (F32.fin x) = true := by
  have h1 := roundQ_le_of_representable hx h
  unfold F32.round
  split_ifs with h2 h3
  · rfl
  · exfalso
    have h4 := roundQ_nonneg (not_lt.1 h3)
    have h5 := hx.abs_lt_max
    have h6 := le_abs_self x
    rw [abs_of_nonneg h4] at h2
    linarith
  · simpa [F32.le] using h1

theorem F32.lt_eq_false_iff {a b : F32} (ha : a ≠ F32.nan) (hb : b ≠ F32.nan) :
    F32.lt a b = false ↔ F32.le b a = true := by
  cases a <;> cases b <;> simp_all [F32.lt, F32.le]

theorem F32.le_refl {a : F32} (ha : a ≠ F32.nan) : F32.le a a = true := by
  cases a <;> simp_all [F32.le]

theorem F32.lt_of_lt_of_le {a b c : F32} (h1 : F32.lt a b = true) (h2 : F32.le b c = true) :
    F32.lt a c = true := by
  cases a <;> cases b <;> cases c <;> simp_all [F32.lt, F32.le]
  exact h1.trans_le h2

theorem F32.ofInt_nonneg {n : ℤ} (h : 0 ≤ n) : F32.le (F32.fin 0) (F32.ofInt n) = true := by
  have h0 : Representable ((0 : ℤ) : ℚ) := representable_intCast (by norm_num)
  have h1 : ((0 : ℤ) : ℚ) ≤ (n : ℚ) := by exact_mod_cast h
  simpa using F32.le_round_of_le h0 h1

theorem F32.ofInt_neg {n : ℤ} (h : n < 0) : F32.lt (F32.ofInt n) (F32.fin 0) = true := by
  have h0 : Representable ((-1 : ℤ) : ℚ) := representable_intCast (by norm_num)
  have h1 : (n : ℚ) ≤ ((-1 : ℤ) : ℚ) := by exact_mod_cast (by omega : n ≤ -1)
  have h2 := F32.round_le_of_le h0 h1
  unfold F32.ofInt
  cases hr : F32.round (n : ℚ) <;> rw [hr] at h2 <;> simp [F32.le, F32.lt] at h2 ⊢
  linarith

theorem F32.lt_round_eq_false {x s : ℚ} (hx : Representable x) (h : x ≤ s) :
    F32.lt (F32.round s) (F32.fin x) = false :=
  (F32.lt_eq_false_iff (F32.round_ne_nan s) (by simp)).2 (F32.le_round_of_le hx h)

/-! ## The binary32 model: the loop of `update_enemy_positions` in closed form -/

theorem updateEnemyBody_eq_b32 {enemy_speeds : List F32} (screen_width : ℤ)
    {result : List (List F32)} {i : Nat} {e0 e1 e2 e3 e4 s : F32} {tail : List F32}
    (hr : result[i]? = some (e0 :: e1 :: e2 :: e3 :: e4 :: tail))
    (hs : enemy_speeds[i]? = some s) :
    updateEnemyBody enemy_speeds screen_width result i
      = Except.ok (result.set i
          (stepRecord s screen_width (e0 :: e1 :: e2 :: e3 :: e4 :: tail))) := by
  have hi : i < result.length := by
    rcases List.getElem?_eq_some.1 hr with ⟨h, _⟩
    exact h
  cases h1 : F32.lt (F32.add e0 e4) (F32.ofInt 0)
  · cases h2 : F32.lt (F32.ofInt screen_width) (F32.add e0 e4) <;>
      simp [updateEnemyBody, readAt2, writeAt2, writeAt, readAt, hr, hs, hi, h1, h2, stepRecord,
        F32.max, F32.min, bind, Except.bind, pure, Except.pure, List.getElem?_set]
  · cases h2 : F32.lt (F32.ofInt screen_width) (F32.ofInt 0) <;>
      simp [updateEnemyBody, readAt2, writeAt2, writeAt, readAt, hr, hs, hi, h1, h2, stepRecord,
        F32.max, F32.min, bind, Except.bind, pure, Except.pure, List.getElem?_set]

theorem getElem?_five {v : List (List F32)} (hv : ∀ r ∈ v, 5 ≤ r.length) {i : Nat}
    (hi : i < v.length) :
    ∃ e0 e1 e2 e3 e4 tail, v[i]? = some (e0 :: e1 :: e2 :: e3 :: e4 :: tail) := by
  have hlen := hv _ (List.getElem_mem hi)
  have hget : v[i]? = some v[i] := List.getElem?_eq_getElem hi
  match hm : v[i], hlen with
  | e0 :: e1 :: e2 :: e3 :: e4 :: tail, _ => exact ⟨e0, e1, e2, e3, e4, tail, by rw [hget, hm]⟩

theorem getElem?_stepPrefix_b32 (enemies : List (List F32)) (enemy_speeds : List F32)
    (screen_width : ℤ) (n i : Nat) :
    (stepPrefix enemies enemy_speeds screen_width n)[i]? =
      if i < n then (enemies[i]?).map (stepRecord (enemy_speeds.getD i F32.nan) screen_width)
      else enemies[i]? := by
  by_cases hi : i < enemies.length
  · have h1 : enemies[i]? = some enemies[i] := List.getElem?_eq_getElem hi
    have h3 : enemies.getD i [] = enemies[i] := by simp [List.getD, h1]
    have h2 : (List.range enemies.length)[i]? = some i := List.getElem?_range hi
    by_cases hn : i < n <;> simp [stepPrefix, h1, h2, h3, hn]
  · have h1 : enemies[i]? = none := List.getElem?_eq_none (by omega)
    have h2 : (List.range enemies.length)[i]? = none :=
      List.getElem?_eq_none (by simpa using hi)
    simp [stepPrefix, h1, h2]

theorem stepPrefix_zero_b32 (enemies : List (List F32)) (enemy_speeds : List F32)
    (screen_width : ℤ) : stepPrefix enemies enemy_speeds screen_width 0 = enemies := by
  apply List.ext_getElem?
  intro i
  simp [getElem?_stepPrefix_b32]

theorem updateEnemyBody_stepPrefix_b32 {enemies : List (List F32)} {enemy_speeds : List F32}
    (he : ∀ r ∈ enemies, 5 ≤ r.length) (hs : enemies.length ≤ enemy_speeds.length)
    (screen_width : ℤ) {n : Nat} (hn : n < enemies.length) :
    updateEnemyBody enemy_speeds screen_width (stepPrefix enemies enemy_speeds screen_width n) n
      = Except.ok (stepPrefix enemies enemy_speeds screen_width (n + 1)) := by
  obtain ⟨e0, e1, e2, e3, e4, tail, hr⟩ := getElem?_five he hn
  have hsn : n < enemy_speeds.length := lt_of_lt_of_le hn hs
  have hsp : enemy_speeds[n]? = some (enemy_speeds.getD n F32.nan) := by
    simp [List.getD, List.getElem?_eq_getElem hsn]
  have hcur : (stepPrefix enemies enemy_speeds screen_width n)[n]?
      = some (e0 :: e1 :: e2 :: e3 :: e4 :: tail) := by
    simp [getElem?_stepPrefix_b32, hr]
  rw [updateEnemyBody_eq_b32 screen_width hcur hsp]
  congr 1
  apply List.ext_getElem?
  intro i
  have hlen : (stepPrefix enemies enemy_speeds screen_width n).length = enemies.length := by
    simp [stepPrefix]
  rcases Nat.lt_trichotomy i n with h1 | h1 | h1
  · have h2 : i < n + 1 := by omega
    have h3 : n ≠ i := by omega
    simp [List.getElem?_set, getElem?_stepPrefix_b32, h1, h2, h3]
  · subst h1
    simp [List.getElem?_set, getElem?_stepPrefix_b32, hlen, hn, hr]
  · have h2 : ¬ i < n + 1 := by omega
    have h3 : n ≠ i := by omega
    have h4 : ¬ i < n := by omega
    simp [List.getElem?_set, getElem?_stepPrefix_b32, h2, h3, h4]

theorem updateEnemy_fold_b32 {enemies : List (List F32)} {enemy_speeds : List F32}
    (he : ∀ r ∈ enemies, 5 ≤ r.length) (hs : enemies.length ≤ enemy_speeds.length)
    (screen_width : ℤ) :
    ∀ n, n ≤ enemies.length →
      List.foldlM (updateEnemyBody enemy_speeds screen_width) enemies (List.range n)
        = Except.ok (stepPrefix enemies enemy_speeds screen_width n) := by
  intro n
  induction n with
  | zero => intro _; simp [stepPrefix_zero_b32, pure, Except.pure]
  | succ n ih =>
    intro hn
    have hlt : n < enemies.length := hn
    rw [List.range_succ, List.foldlM_append, ih (Nat.le_of_lt hlt)]
    simp [updateEnemyBody_stepPrefix_b32 he hs screen_width hlt, bind, Except.bind, pure,
      Except.pure]

theorem update_enemy_positions_eq_b32 {enemies : List (List F32)} {enemy_speeds : List F32}
    (he : ∀ r ∈ enemies, 5 ≤ r.length) (hs : enemies.length ≤ enemy_speeds.length)
    (screen_width screen_height : ℤ) :
    update_enemy_positions enemies enemy_speeds screen_width screen_height
      = Except.ok (stepPrefix enemies enemy_speeds screen_width enemies.length) :=
  updateEnemy_fold_b32 he hs screen_width enemies.length (le_refl _)

theorem getElem?_update_result_b32 {enemies : List (List F32)} {enemy_speeds : List F32}
    (he : ∀ r ∈ enemies, 5 ≤ r.length) (hs : enemies.length ≤ enemy_speeds.length)
    (screen_width : ℤ) {i : Nat} (hi : i < enemies.length) :
    ∃ e0 e1 e2 e3 e4 tail s,
      enemies[i]? = some (e0 :: e1 :: e2 :: e3 :: e4 :: tail) ∧ enemy_speeds[i]? = some s ∧
      (stepPrefix enemies enemy_speeds screen_width enemies.length)[i]?
        = some (F32.min (F32.max (F32.add e0 e4) (F32.fin 0)) (F32.ofInt screen_width)
            :: F32.add e1 s :: e2 :: e3 :: e4 :: tail) := by
  obtain ⟨e0, e1, e2, e3, e4, tail, hr⟩ := getElem?_five he hi
  have hsn : i < enemy_speeds.length := lt_of_lt_of_le hi hs
  refine ⟨e0, e1, e2, e3, e4, tail, enemy_speeds[i], hr, List.getElem?_eq_getElem hsn, ?_⟩
  have hd : enemy_speeds.getD i F32.nan = enemy_speeds[i] := by
    simp [List.getD, List.getElem?_eq_getElem hsn]
  simp only [getElem?_stepPrefix_b32, hi, if_true, hr, Option.map_some', hd, stepRecord,
    F32.ofInt_zero]

/-! ## The binary32 model: sums that round -/

theorem F32.round_of_binade {q : ℚ} (E f : ℤ) (r : ℚ) (hq : 0 < q) (hlo : (2 : ℚ) ^ E ≤ q)
    (hhi : q < 2 ^ (E + 1)) (hE : -126 ≤ E) (hf1 : (f : ℚ) ≤ q / 2 ^ (E - 23))
    (hf2 : q / 2 ^ (E - 23) < (f : ℚ) + 1)
    (hr : ((if q / 2 ^ (E - 23) - (f : ℚ) < 1 / 2 then f
        else if 1 / 2 < q / 2 ^ (E - 23) - (f : ℚ) then f + 1
        else if f % 2 = 0 then f else f + 1 : ℤ) : ℚ) * 2 ^ (E - 23) = r)
    (hfin : |r| < 2 ^ 128) : F32.round q = F32.fin r := by
  have h := roundQ_of_binade E f hq hlo hhi hE hf1 hf2
  rw [hr] at h
  rw [F32.round_eq_fin (by rw [h]; exact hfin), h]

theorem F32.round_16777217 : F32.round 16777217 = F32.fin 16777216 :=
  F32.round_of_binade 24 8388608 16777216 (by norm_num) (by norm_num) (by norm_num)
    (by norm_num) (by norm_num) (by norm_num) (by norm_num) (by norm_num)

theorem F32.round_16777219 : F32.round 16777219 = F32.fin 16777220 :=
  F32.round_of_binade 24 8388609 16777220 (by norm_num) (by norm_num) (by norm_num)
    (by norm_num) (by norm_num) (by norm_num) (by norm_num) (by norm_num)

theorem F32.round_16777221 : F32.round 16777221 = F32.fin 16777220 :=
  F32.round_of_binade 24 8388610 16777220 (by norm_num) (by norm_num) (by norm_num)
    (by norm_num) (by norm_num) (by norm_num) (by norm_num) (by norm_num)

theorem F32.round_33554435 : F32.round 33554435 = F32.fin 33554436 :=
  F32.round_of_binade 25 8388608 33554436 (by norm_num) (by norm_num) (by norm_num)
    (by norm_num) (by norm_num) (by norm_num) (by norm_num) (by norm_num)

theorem F32.round_33554437 : F32.round 33554437 = F32.fin 33554436 :=
  F32.round_of_binade 25 8388609 33554436 (by norm_num) (by norm_num) (by norm_num)
    (by norm_num) (by norm_num) (by norm_num) (by norm_num) (by norm_num)

theorem F32.round_33554431_half : F32.round (33554431 / 2) = F32.fin 16777216 :=
  F32.round_of_binade 23 16777215 16777216 (by norm_num) (by norm_num) (by norm_num)
    (by norm_num) (by norm_num) (by norm_num) (by norm_num) (by norm_num)

theorem F32.round_zero : F32.round 0 = F32.fin 0 := by
  simpa using F32.round_of_representable (@representable_intCast 0 (by norm_num))

theorem F32.round_one : F32.round 1 = F32.fin 1 := by
  simpa using F32.round_of_representable (@representable_intCast 1 (by norm_num))

theorem F32.round_neg_one : F32.round (-1) = F32.fin (-1) := by
  simpa using F32.round_of_representable (@representable_intCast (-1) (by norm_num))

theorem representable_16777218 : Representable 16777218 :=
  ⟨8388609, 1, by norm_num, by norm_num, by norm_num, by norm_num⟩

theorem representable_16777220 : Representable 16777220 :=
  ⟨8388610, 1, by norm_num, by norm_num, by norm_num, by norm_num⟩

theorem representable_16777222 : Representable 16777222 :=
  ⟨8388611, 1, by norm_num, by norm_num, by norm_num, by norm_num⟩

theorem representable_33554432 : Representable 33554432 :=
  ⟨8388608, 2, by norm_num, by norm_num, by norm_num, by norm_num⟩

theorem representable_33554436 : Representable 33554436 :=
  ⟨8388609, 2, by norm_num, by norm_num, by norm_num, by norm_num⟩

theorem representable_neg_half : Representable (-1 / 2) :=
  ⟨-1, -1, by norm_num, by norm_num, by norm_num, by norm_num⟩

theorem F32.round_16777222 : F32.round 16777222 = F32.fin 16777222 :=
  F32.round_of_representable representable_16777222

theorem F32.add_fin_fin (a b : ℚ) : F32.add (F32.fin a) (F32.fin b) = F32.round (a + b) := rfl

theorem F32.lt_fin_fin (a b : ℚ) : F32.lt (F32.fin a) (F32.fin b) = decide (a < b) := rfl

theorem F32.le_fin_fin (a b : ℚ) : F32.le (F32.fin a) (F32.fin b) = decide (a ≤ b) := rfl

theorem F32.lt_nan_right (a : F32) : F32.lt a F32.nan = false := by
  cases a <;> rfl

theorem F32.lt_nan_left (a : F32) : F32.lt F32.nan a = false := by
  cases a <;> rfl

theorem F32.add_nan_left (a : F32) : F32.add F32.nan a = F32.nan := by
  cases a <;> rfl

theorem F32.ofInt_16777219 : F32.ofInt 16777219 = F32.fin 16777220 := by
  have h : ((16777219 : ℤ) : ℚ) = 16777219 := by norm_num
  rw [F32.ofInt, h, F32.round_16777219]

theorem F32.ofInt_neg_one : F32.ofInt (-1) = F32.fin (-1) := by
  simpa using @F32.ofInt_of_abs_le (-1) (by norm_num)

theorem F32.ofInt_eight : F32.ofInt 8 = F32.fin 8 := by
  simpa using @F32.ofInt_of_abs_le 8 (by norm_num)

theorem F32.ofInt_800 : F32.ofInt 800 = F32.fin 800 := by
  simpa using @F32.ofInt_of_abs_le 800 (by norm_num)

theorem F32.round_ten : F32.round 10 = F32.fin 10 := by
  simpa using F32.round_of_representable (@representable_intCast 10 (by norm_num))

theorem F32.round_fifteen : F32.round 15 = F32.fin 15 := by
  simpa using F32.round_of_representable (@representable_intCast 15 (by norm_num))

theorem F32.round_neg_two : F32.round (-2) = F32.fin (-2) := by
  simpa using F32.round_of_representable (@representable_intCast (-2) (by norm_num))

theorem F32.round_1500 : F32.round 1500 = F32.fin 1500 := by
  simpa using F32.round_of_representable (@representable_intCast 1500 (by norm_num))

/-! ## The binary32 model: the claims that turn on rounding -/

/-- C3, as stated, fails: the rectangle `(16777218, 0, 1, 1)` collides with
`(16777220, 0, 1, 1)` because the sum `16777218 + 1` rounds to `16777220`, although
`A.x + A.width >= B.x` is false; and a rectangle with a NaN coordinate collides although no
comparison `>=` with NaN holds. -/
theorem collides_with_rounded_sum :
    Representable 16777218 ∧ Representable 16777220 ∧
    Rect.collides_with (Rect.mk (F32.fin 16777218) (F32.fin 0) (F32.fin 1) (F32.fin 1))
      (Rect.mk (F32.fin 16777220) (F32.fin 0) (F32.fin 1) (F32.fin 1)) = true ∧
    ¬ ((16777218 : ℚ) + 1 ≥ 16777220) ∧
    Rect.collides_with (Rect.mk F32.nan (F32.fin 0) (F32.fin 1) (F32.fin 1))
      (Rect.mk (F32.fin 5) (F32.fin 0) (F32.fin 1) (F32.fin 1)) = true ∧
    F32.le (F32.fin 5) (F32.add F32.nan (F32.fin 1)) = false := by
  refine ⟨representable_16777218, representable_16777220, ?_, by norm_num, ?_, rfl⟩
  · norm_num [Rect.collides_with, F32.add_fin_fin, F32.lt_fin_fin, F32.round_16777219,
      F32.round_16777221, F32.round_one]
  · norm_num [Rect.collides_with, F32.add_nan_left, F32.lt_nan_left, F32.lt_nan_right,
      F32.add_fin_fin, F32.lt_fin_fin, F32.round_one]

/-- C3, amended: for rectangles with finite fields, `collides_with` is true exactly when the
four comparisons `>=` hold with the binary32 sums; it is true in particular whenever they hold
with the exact sums of representable coordinates; and `bullet_boss_collision` and
`player_bullet_collision` are `collides_with` on the two rectangles built from their eight
arguments. -/
theorem collides_with_iff_binary32 (ax ay aw ah bx by_ bw bh : ℚ) :
    ((Rect.mk (F32.fin ax) (F32.fin ay) (F32.fin aw) (F32.fin ah)).collides_with
        (Rect.mk (F32.fin bx) (F32.fin by_) (F32.fin bw) (F32.fin bh)) = true ↔
      F32.le (F32.fin bx) (F32.add (F32.fin ax) (F32.fin aw)) = true ∧
      F32.le (F32.fin ax) (F32.add (F32.fin bx) (F32.fin bw)) = true ∧
      F32.le (F32.fin by_) (F32.add (F32.fin ay) (F32.fin ah)) = true ∧
      F32.le (F32.fin ay) (F32.add (F32.fin by_) (F32.fin bh)) = true) ∧
    (Representable ax → Representable ay → Representable bx → Representable by_ →
      bx ≤ ax + aw → ax ≤ bx + bw → by_ ≤ ay + ah → ay ≤ by_ + bh →
      (Rect.mk (F32.fin ax) (F32.fin ay) (F32.fin aw) (F32.fin ah)).collides_with
        (Rect.mk (F32.fin bx) (F32.fin by_) (F32.fin bw) (F32.fin bh)) = true) ∧
    (∀ x1 y1 w1 h1 x2 y2 w2 h2 : F32,
      bullet_boss_collision x1 y1 w1 h1 x2 y2 w2 h2
        = (Rect.mk x1 y1 w1 h1).collides_with (Rect.mk x2 y2 w2 h2)) ∧
    (∀ x1 y1 w1 h1 x2 y2 w2 h2 : F32,
      player_bullet_collision x1 y1 w1 h1 x2 y2 w2 h2
        = (Rect.mk x1 y1 w1 h1).collides_with (Rect.mk x2 y2 w2 h2)) := by
  refine ⟨?_, ?_, fun _ _ _ _ _ _ _ _ => rfl, fun _ _ _ _ _ _ _ _ => rfl⟩
  · simp only [Rect.collides_with, F32.add_fin_fin, Bool.not_eq_true', Bool.or_eq_false_iff,
      F32.lt_eq_false_iff (F32.round_ne_nan _) (F32.noConfusion : F32.fin _ ≠ F32.nan),
      and_assoc]
  · intro hax hay hbx hby h1 h2 h3 h4
    simp only [Rect.collides_with, F32.add_fin_fin, F32.lt_round_eq_false hbx h1,
      F32.lt_round_eq_false hax h2, F32.lt_round_eq_false hby h3,
      F32.lt_round_eq_false hay h4, Bool.or_self, Bool.not_false]

/-- Witness for C3 amended: the edge-touching rectangles `(0,0,10,10)` and `(10,0,10,10)`
collide. -/
theorem collides_with_iff_binary32_witness :
    (Rect.mk (F32.fin 0) (F32.fin 0) (F32.fin 10) (F32.fin 10)).collides_with
      (Rect.mk (F32.fin 10) (F32.fin 0) (F32.fin 10) (F32.fin 10)) = true :=
  (collides_with_iff_binary32 0 0 10 10 10 0 10 10).2.1
    (by simpa using @representable_intCast 0 (by norm_num))
    (by simpa using @representable_intCast 0 (by norm_num))
    (by simpa using @representable_intCast 10 (by norm_num))
    (by simpa using @representable_intCast 0 (by norm_num))
    (by norm_num) (by norm_num) (by norm_num) (by norm_num)

/-- C7, as stated, fails: `B.x = 33554436` is strictly greater than
`A.x + A.width = 33554432 + 3`, yet the rectangles collide, because the sum rounds up to
`33554436`. -/
theorem collides_with_separated_rounding :
    Representable 33554432 ∧ Representable 33554436 ∧
    (33554436 : ℚ) > 33554432 + 3 ∧
    Rect.collides_with (Rect.mk (F32.fin 33554432) (F32.fin 0) (F32.fin 3) (F32.fin 1))
      (Rect.mk (F32.fin 33554436) (F32.fin 0) (F32.fin 1) (F32.fin 1)) = true := by
  refine ⟨representable_33554432, representable_33554436, by norm_num, ?_⟩
  norm_num [Rect.collides_with, F32.add_fin_fin, F32.lt_fin_fin, F32.round_33554435,
    F32.round_33554437, F32.round_one]

/-- C7, amended: rectangles separated with respect to the binary32 sum, `B.x` greater than the
rounded `A.x + A.width` or `B.y` greater than the rounded `A.y + A.height`, do not collide,
whatever the other coordinates and extents are. -/
theorem collides_with_separated_binary32 (A B : Rect)
    (h : F32.lt (F32.add A.x A.width) B.x = true ∨ F32.lt (F32.add A.y A.height) B.y = true) :
    A.collides_with B = false := by
  rcases h with h | h <;> simp [Rect.collides_with, h]

/-- Witness for C7 amended: the rectangle `(0,0,10,10)` and the rectangle at the binary32 value
of `10.0001`, which is `10485865 / 2^20`, do not collide. -/
theorem collides_with_separated_binary32_witness :
    (Rect.mk (F32.fin 0) (F32.fin 0) (F32.fin 10) (F32.fin 10)).collides_with
      (Rect.mk (F32.fin (10485865 / 1048576)) (F32.fin 0) (F32.fin 10) (F32.fin 10)) = false :=
  collides_with_separated_binary32 _ _
    (Or.inl (by norm_num [F32.add_fin_fin, F32.lt_fin_fin, F32.round_ten]))

/-- C19, as stated, fails: the rectangle `(16777216, 0, -1/2, 1)` has a negative width and
collides with itself, because `16777216 - 1/2` rounds back to `16777216`. -/
theorem collides_with_self_negative_width :
    Representable 16777216 ∧ Representable (-1 / 2) ∧ (-1 / 2 : ℚ) < 0 ∧
    Rect.collides_with (Rect.mk (F32.fin 16777216) (F32.fin 0) (F32.fin (-1 / 2)) (F32.fin 1))
      (Rect.mk (F32.fin 16777216) (F32.fin 0) (F32.fin (-1 / 2)) (F32.fin 1)) = true := by
  refine ⟨by simpa using @representable_intCast 16777216 (by norm_num), representable_neg_half,
    by norm_num, ?_⟩
  norm_num [Rect.collides_with, F32.add_fin_fin, F32.lt_fin_fin, F32.round_33554431_half,
    F32.round_one]

/-- C19, amended: a rectangle with finite fields collides with itself exactly when the binary32
sums `x + width` and `y + height` are not below `x` and `y`.  If it does not collide with
itself, an extent is negative; and a negative width (height) does prevent the collision
whenever the exact sum `x + width` (`y + height`) is representable, so not rounded. -/
theorem collides_with_self_binary32 (x y w h : ℚ) :
    ((Rect.mk (F32.fin x) (F32.fin y) (F32.fin w) (F32.fin h)).collides_with
        (Rect.mk (F32.fin x) (F32.fin y) (F32.fin w) (F32.fin h)) = true ↔
      F32.le (F32.fin x) (F32.add (F32.fin x) (F32.fin w)) = true ∧
      F32.le (F32.fin y) (F32.add (F32.fin y) (F32.fin h)) = true) ∧
    (Representable x → Representable y →
      (Rect.mk (F32.fin x) (F32.fin y) (F32.fin w) (F32.fin h)).collides_with
        (Rect.mk (F32.fin x) (F32.fin y) (F32.fin w) (F32.fin h)) = false →
      w < 0 ∨ h < 0) ∧
    (w < 0 → Representable (x + w) →
      (Rect.mk (F32.fin x) (F32.fin y) (F32.fin w) (F32.fin h)).collides_with
        (Rect.mk (F32.fin x) (F32.fin y) (F32.fin w) (F32.fin h)) = false) ∧
    (h < 0 → Representable (y + h) →
      (Rect.mk (F32.fin x) (F32.fin y) (F32.fin w) (F32.fin h)).collides_with
        (Rect.mk (F32.fin x) (F32.fin y) (F32.fin w) (F32.fin h)) = false) := by
  refine ⟨?_, ?_, ?_, ?_⟩
  · simp only [Rect.collides_with, F32.add_fin_fin, Bool.not_eq_true', Bool.or_eq_false_iff,
      F32.lt_eq_false_iff (F32.round_ne_nan _) (F32.noConfusion : F32.fin _ ≠ F32.nan)]
    tauto
  · intro hx hy hc
    by_contra hneg
    rw [not_or, not_lt, not_lt] at hneg
    have h1 := F32.lt_round_eq_false hx (le_add_of_nonneg_right hneg.1)
    have h2 := F32.lt_round_eq_false hy (le_add_of_nonneg_right hneg.2)
    simp [Rect.collides_with, F32.add_fin_fin, h1, h2] at hc
  · intro hw hr
    have h1 : F32.lt (F32.round (x + w)) (F32.fin x) = true := by
      rw [F32.round_of_representable hr, F32.lt_fin_fin]
      simpa using hw
    simp [Rect.collides_with, F32.add_fin_fin, h1]
  · intro hh hr
    have h1 : F32.lt (F32.round (y + h)) (F32.fin y) = true := by
      rw [F32.round_of_representable hr, F32.lt_fin_fin]
      simpa using hh
    simp [Rect.collides_with, F32.add_fin_fin, h1]

/-- Witness for C19 amended: the rectangle `(0, 0, -1, 5)` does not collide with itself. -/
theorem collides_with_self_binary32_witness :
    (Rect.mk (F32.fin 0) (F32.fin 0) (F32.fin (-1)) (F32.fin 5)).collides_with
      (Rect.mk (F32.fin 0) (F32.fin 0) (F32.fin (-1)) (F32.fin 5)) = false :=
  (collides_with_self_binary32 0 0 (-1) 5).2.2.1 (by norm_num)
    (by simpa using @representable_intCast (-1) (by norm_num))

theorem F32.max_zero_spec {a : F32} (ha : a ≠ F32.nan) :
    F32.max a (F32.fin 0) ≠ F32.nan ∧ F32.le (F32.fin 0) (F32.max a (F32.fin 0)) = true := by
  unfold F32.max
  cases h : F32.lt a (F32.fin 0)
  · exact ⟨by simpa using ha, (F32.lt_eq_false_iff ha (by simp)).1 h⟩
  · exact ⟨by simp, by simp [F32.le]⟩

/-- C9, as stated, fails.  With `screen_width = -1` the enemy `[0,0,0,0,0]` comes back with the
horizontal coordinate `-1`, which is negative.  With `screen_width = 16777219` the enemy at
`x = 16777222` comes back at `16777220`, the binary32 value of the width, which is above the
width.  A NaN coordinate is left as it is. -/
theorem update_enemy_positions_outside_range :
    update_enemy_positions [[F32.fin 0, F32.fin 0, F32.fin 0, F32.fin 0, F32.fin 0]] [F32.fin 0]
        (-1) 0
      = Except.ok [[F32.fin (-1), F32.fin 0, F32.fin 0, F32.fin 0, F32.fin 0]] ∧
    ¬ ((0 : ℚ) ≤ -1) ∧
    Representable 16777222 ∧
    update_enemy_positions
        [[F32.fin 16777222, F32.fin 0, F32.fin 0, F32.fin 0, F32.fin 0]] [F32.fin 0]
        16777219 0
      = Except.ok [[F32.fin 16777220, F32.fin 0, F32.fin 0, F32.fin 0, F32.fin 0]] ∧
    ¬ ((16777220 : ℚ) ≤ ((16777219 : ℤ) : ℚ)) ∧
    update_enemy_positions [[F32.nan, F32.fin 0, F32.fin 0, F32.fin 0, F32.fin 0]] [F32.fin 0]
        8 0
      = Except.ok [[F32.nan, F32.fin 0, F32.fin 0, F32.fin 0, F32.fin 0]] := by
  refine ⟨?_, by norm_num, representable_16777222, ?_, by norm_num, ?_⟩
  · rw [update_enemy_positions_eq_b32 (by simp) (by simp)]
    norm_num [stepPrefix, stepRecord, List.range, List.range.loop, F32.max, F32.min,
      F32.add_fin_fin, F32.lt_fin_fin, F32.ofInt_neg_one, F32.ofInt_zero, F32.round_zero]
  · rw [update_enemy_positions_eq_b32 (by simp) (by simp)]
    norm_num [stepPrefix, stepRecord, List.range, List.range.loop, F32.max, F32.min,
      F32.add_fin_fin, F32.lt_fin_fin, F32.ofInt_16777219, F32.ofInt_zero, F32.round_zero,
      F32.round_16777222]
  · rw [update_enemy_positions_eq_b32 (by simp) (by simp)]
    norm_num [stepPrefix, stepRecord, List.range, List.range.loop, F32.max, F32.min,
      F32.add_nan_left, F32.lt_nan_left, F32.lt_nan_right, F32.add_fin_fin, F32.lt_fin_fin,
      F32.ofInt_eight, F32.ofInt_zero, F32.round_zero]

/-- C9, amended: on well-formed input, every record whose binary32 sum of components 0 and 4 is
not NaN comes back with a horizontal coordinate that is at most the binary32 value of
`screen_width`; it is non-negative whenever `screen_width` is non-negative, and equals the
binary32 value of `screen_width` when `screen_width` is negative.  The binary32 value of
`screen_width` is `screen_width` itself whenever `|screen_width| <= 2^24`. -/
theorem update_enemy_positions_clamped_binary32 (enemies : List (List F32))
    (enemy_speeds : List F32) (screen_width screen_height : ℤ)
    (he : ∀ r ∈ enemies, 5 ≤ r.length) (hs : enemies.length ≤ enemy_speeds.length) :
    ∃ rs, update_enemy_positions enemies enemy_speeds screen_width screen_height
        = Except.ok rs ∧
      rs.length = enemies.length ∧
      (∀ (i : Nat) (e0 e1 e2 e3 e4 : F32) (tail : List F32),
        enemies[i]? = some (e0 :: e1 :: e2 :: e3 :: e4 :: tail) →
        F32.add e0 e4 ≠ F32.nan →
        ∃ x rest, rs[i]? = some (x :: rest) ∧
          F32.le x (F32.ofInt screen_width) = true ∧
          (0 ≤ screen_width → F32.le (F32.fin 0) x = true) ∧
          (screen_width < 0 → x = F32.ofInt screen_width)) ∧
      (|screen_width| ≤ 2 ^ 24 → F32.ofInt screen_width = F32.fin (screen_width : ℚ)) := by
  refine ⟨_, update_enemy_positions_eq_b32 he hs screen_width screen_height, by simp [stepPrefix],
    ?_, F32.ofInt_of_abs_le⟩
  intro i e0 e1 e2 e3 e4 tail hr hnan
  have hi : i < enemies.length := (List.getElem?_eq_some.1 hr).1
  obtain ⟨a0, a1, a2, a3, a4, atail, s, hr2, _, hres⟩ :=
    getElem?_update_result_b32 he hs screen_width hi
  rw [hr] at hr2
  cases hr2
  refine ⟨_, _, hres, ?_, ?_, ?_⟩
  · obtain ⟨hne, _⟩ := F32.max_zero_spec hnan
    unfold F32.min
    cases h : F32.lt (F32.ofInt screen_width) (F32.max (F32.add e0 e4) (F32.fin 0))
    · simpa using (F32.lt_eq_false_iff (F32.round_ne_nan _) hne).1 h
    · simpa using F32.le_refl (F32.round_ne_nan _)
  · intro h0
    obtain ⟨_, hle⟩ := F32.max_zero_spec hnan
    unfold F32.min
    cases h : F32.lt (F32.ofInt screen_width) (F32.max (F32.add e0 e4) (F32.fin 0))
    · simpa using hle
    · simpa using F32.ofInt_nonneg h0
  · intro hneg
    obtain ⟨_, hle⟩ := F32.max_zero_spec hnan
    have hlt := F32.lt_of_lt_of_le (F32.ofInt_neg hneg) hle
    simp [F32.min, hlt]

/-- Witness for C9 amended: one enemy at `x = 5` with horizontal step 10 on a screen of width 8
ends at `x = 8`. -/
theorem update_enemy_positions_clamped_binary32_witness :
    update_enemy_positions
        [[F32.fin 5, F32.fin 0, F32.fin 0, F32.fin 0, F32.fin 10]] [F32.fin 1] 8 6
      = Except.ok [[F32.fin 8, F32.fin 1, F32.fin 0, F32.fin 0, F32.fin 10]] ∧
    ∃ rs, update_enemy_positions
        [[F32.fin 5, F32.fin 0, F32.fin 0, F32.fin 0, F32.fin 10]] [F32.fin 1] 8 6
        = Except.ok rs ∧
      rs.length = [[F32.fin 5, F32.fin 0, F32.fin 0, F32.fin 0, F32.fin 10]].length ∧
      (∀ (i : Nat) (e0 e1 e2 e3 e4 : F32) (tail : List F32),
        [[F32.fin 5, F32.fin 0, F32.fin 0, F32.fin 0, F32.fin 10]][i]?
          = some (e0 :: e1 :: e2 :: e3 :: e4 :: tail) →
        F32.add e0 e4 ≠ F32.nan →
        ∃ x rest, rs[i]? = some (x :: rest) ∧
          F32.le x (F32.ofInt 8) = true ∧
          ((0 : ℤ) ≤ 8 → F32.le (F32.fin 0) x = true) ∧
          ((8 : ℤ) < 0 → x = F32.ofInt 8)) ∧
      (|(8 : ℤ)| ≤ 2 ^ 24 → F32.ofInt 8 = F32.fin ((8 : ℤ) : ℚ)) :=
  ⟨by
      rw [update_enemy_positions_eq_b32 (by simp) (by simp)]
      norm_num [stepPrefix, stepRecord, List.range, List.range.loop, F32.max, F32.min,
        F32.add_fin_fin, F32.lt_fin_fin, F32.ofInt_eight, F32.ofInt_zero, F32.round_fifteen,
        F32.round_one],
    update_enemy_positions_clamped_binary32
      [[F32.fin 5, F32.fin 0, F32.fin 0, F32.fin 0, F32.fin 10]] [F32.fin 1] 8 6
      (by simp) (by simp)⟩

/-- C10, as stated, fails: with `screen_width = 16777219` the enemy at `x = 16777222`, step 0,
comes back at `16777220`, not at `min(max(x, 0), screen_width) = 16777219`; and its vertical
coordinate `16777216` with speed 1 comes back as `16777216`, not as the exact sum. -/
theorem update_enemy_positions_rounded :
    Representable 16777222 ∧ Representable 16777216 ∧
    update_enemy_positions
        [[F32.fin 16777222, F32.fin 16777216, F32.fin 0, F32.fin 0, F32.fin 0]] [F32.fin 1]
        16777219 0
      = Except.ok [[F32.fin 16777220, F32.fin 16777216, F32.fin 0, F32.fin 0, F32.fin 0]] ∧
    (16777220 : ℚ) ≠ min (max (16777222 + 0) 0) ((16777219 : ℤ) : ℚ) ∧
    (16777216 : ℚ) ≠ 16777216 + 1 := by
  refine ⟨representable_16777222, by simpa using @representable_intCast 16777216 (by norm_num),
    ?_, by norm_num, by norm_num⟩
  rw [update_enemy_positions_eq_b32 (by simp) (by simp)]
  norm_num [stepPrefix, stepRecord, List.range, List.range.loop, F32.max, F32.min,
    F32.add_fin_fin, F32.lt_fin_fin, F32.ofInt_16777219, F32.ofInt_zero, F32.round_16777222,
    F32.round_16777217]

/-- C10, amended: on well-formed input, output record `i` of `update_enemy_positions` has as
vertical coordinate the binary32 sum of `enemies[i][1]` and `enemy_speeds[i]`, unclamped and
whatever `screen_height` is, and as horizontal coordinate
`min (max s 0) w`, where `s` is the binary32 sum of `enemies[i][0]` and `enemies[i][4]` and
`w` the binary32 value of `screen_width`.  A binary32 sum is the exact sum whenever the exact sum
is representable, and `w` is `screen_width` whenever `|screen_width| <= 2^24`. -/
theorem update_enemy_positions_coordinates_binary32 (enemies : List (List F32))
    (enemy_speeds : List F32) (screen_width screen_height : ℤ)
    (he : ∀ r ∈ enemies, 5 ≤ r.length) (hs : enemies.length ≤ enemy_speeds.length) :
    ∃ rs, update_enemy_positions enemies enemy_speeds screen_width screen_height
        = Except.ok rs ∧
      (∀ i, i < enemies.length →
        ∃ e0 e1 e2 e3 e4 tail s rest,
          enemies[i]? = some (e0 :: e1 :: e2 :: e3 :: e4 :: tail) ∧
          enemy_speeds[i]? = some s ∧
          rs[i]? = some (F32.min (F32.max (F32.add e0 e4) (F32.fin 0)) (F32.ofInt screen_width)
            :: F32.add e1 s :: rest)) ∧
      (∀ a b : ℚ, Representable (a + b) → F32.add (F32.fin a) (F32.fin b) = F32.fin (a + b)) ∧
      (|screen_width| ≤ 2 ^ 24 → F32.ofInt screen_width = F32.fin (screen_width : ℚ)) := by
  refine ⟨_, update_enemy_positions_eq_b32 he hs screen_width screen_height, ?_, ?_,
    F32.ofInt_of_abs_le⟩
  · intro i hi
    obtain ⟨e0, e1, e2, e3, e4, tail, s, hr, hsp, hres⟩ :=
      getElem?_update_result_b32 he hs screen_width hi
    exact ⟨e0, e1, e2, e3, e4, tail, s, _, hr, hsp, hres⟩
  · intro a b hab
    rw [F32.add_fin_fin, F32.round_of_representable hab]

/-- Witness for C10 amended: an enemy far below the screen keeps its unclamped vertical
coordinate `1000 + 500`, while its horizontal coordinate `-3 + 1` is clamped to 0. -/
theorem update_enemy_positions_coordinates_binary32_witness :
    update_enemy_positions
        [[F32.fin (-3), F32.fin 1000, F32.fin 7, F32.fin 7, F32.fin 1]] [F32.fin 500] 800 600
      = Except.ok [[F32.fin 0, F32.fin 1500, F32.fin 7, F32.fin 7, F32.fin 1]] ∧
    ∃ rs, update_enemy_positions
        [[F32.fin (-3), F32.fin 1000, F32.fin 7, F32.fin 7, F32.fin 1]] [F32.fin 500] 800 600
        = Except.ok rs ∧
      (∀ i, i < [[F32.fin (-3), F32.fin 1000, F32.fin 7, F32.fin 7, F32.fin 1]].length →
        ∃ e0 e1 e2 e3 e4 tail s rest,
          [[F32.fin (-3), F32.fin 1000, F32.fin 7, F32.fin 7, F32.fin 1]][i]?
            = some (e0 :: e1 :: e2 :: e3 :: e4 :: tail) ∧
          [F32.fin 500][i]? = some s ∧
          rs[i]? = some (F32.min (F32.max (F32.add e0 e4) (F32.fin 0)) (F32.ofInt 800)
            :: F32.add e1 s :: rest)) ∧
      (∀ a b : ℚ, Representable (a + b) → F32.add (F32.fin a) (F32.fin b) = F32.fin (a + b)) ∧
      (|(800 : ℤ)| ≤ 2 ^ 24 → F32.ofInt 800 = F32.fin ((800 : ℤ) : ℚ)) :=
  ⟨by
      rw [update_enemy_positions_eq_b32 (by simp) (by simp)]
      norm_num [stepPrefix, stepRecord, List.range, List.range.loop, F32.max, F32.min,
        F32.add_fin_fin, F32.lt_fin_fin, F32.ofInt_800, F32.ofInt_zero, F32.round_neg_two,
        F32.round_1500],
    update_enemy_positions_coordinates_binary32
      [[F32.fin (-3), F32.fin 1000, F32.fin 7, F32.fin 7, F32.fin 1]] [F32.fin 500] 800 600
      (by simp) (by simp)⟩

end Binary32

end GameAccelerator
